import Mathlib

/-!
Verification of `jaxlib/gpu/triton_kernels.cc` (Triton kernel dispatch and
autotuning for JAX on GPU).

The development shallowly embeds the unit's data model and operations:

* `Status` models `absl::Status` failures as constructed by this unit
  (`absl::InvalidArgumentError` with a message, driver failures converted by
  `JAX_AS_STATUS`, and failures propagated from external collaborators).
* `GetModuleImage` models the process-wide assembly cache (the cache state is
  passed explicitly; the returned trace records the arguments of every
  external-compiler invocation).
* `ModuleImage.GetFunctionForContext` models the per-context function loader.
* `Kernel`, `KernelCall` and its `Parameter`s model the launch marshaling
  layer; `KernelCall.Launch` returns the trace of device calls it issues.
* `AutotunedKernelCall` models the one-shot autotuning state machine,
  parametrised by an oracle giving each benchmark's measured time and each
  kernel execution's effect on device memory.
* `ZlibUncompress` models the geometric-growth decompression loop over an
  abstract decompressor.

Machine integers are modelled as `Nat`/`Int` (the claims do not exercise
wrap-around); measured times (`float` in the source) are modelled as `Rat`.
-/

namespace TritonKernels

/-- Model of the `absl::Status` failure values produced by this unit:
`invalidArgument` for statuses built with `absl::InvalidArgumentError`,
`driver` for CUDA driver failures converted by `JAX_AS_STATUS`, and
`external` for statuses propagated verbatim from external collaborators
(e.g. `stream_executor::CompileGpuAsm`). -/
inductive Status where
  | invalidArgument (msg : String)
  | driver (msg : String)
  | external (msg : String)
  deriving DecidableEq, Repr

/-- Model of `absl::StatusOr`. -/
abbrev StatusOr (α : Type) := Except Status α

/-! ### Assembly cache: `GetModuleImage` -/

/-- Cache key of the assembly cache: `(kernel_name, shared_mem_bytes, ptx,
compute_capability)` as in `GetModuleImage`. -/
abbrev ModuleKey := String × Nat × String × Int

/-- Model of a `ModuleImage` entry as constructed by `GetModuleImage`.
The `id` field models the C++ heap identity of the `std::unique_ptr`-owned
object: distinct insertions receive distinct ids, and "the identical instance
reference" is expressed as equality of the whole record including `id`. -/
structure ModuleImage where
  id : Nat
  kernel_name : String
  module_image : List Nat
  shared_mem_bytes : Nat
  deriving DecidableEq, Repr

/-- State of the process-wide assembly cache (`module_images` plus a fresh-id
counter standing for the allocator). -/
structure ModuleCache where
  entries : List (ModuleKey × ModuleImage)
  next_id : Nat
  deriving DecidableEq, Repr

/-- Association-list lookup used to model `flat_hash_map::find`. -/
def lookupKey : List (ModuleKey × ModuleImage) → ModuleKey → Option ModuleImage
  | [], _ => none
  | (k', v) :: rest, k => if k' = k then some v else lookupKey rest k

/-- Model of `GetModuleImage`.  `compile` is the external
`stream_executor::CompileGpuAsm` collaborator.  Besides the result and the
updated cache, the function returns the list of arguments of every
external-compile invocation it performed (empty on a cache hit).
C++ `int` division/remainder truncate toward zero, hence `Int.tdiv`/`Int.tmod`. -/
def GetModuleImage (compile : Int → Int → String → StatusOr (List Nat))
    (kernel_name : String) (shared_mem_bytes : Nat) (ptx : String)
    (compute_capability : Int) (cache : ModuleCache) :
    StatusOr ModuleImage × ModuleCache × List (Int × Int × String) :=
  let key : ModuleKey := (kernel_name, shared_mem_bytes, ptx, compute_capability)
  match lookupKey cache.entries key with
  | some img => (.ok img, cache, [])
  | none =>
    let cc_major : Int := compute_capability.tdiv 10
    let cc_minor : Int := compute_capability.tmod 10
    match compile cc_major cc_minor ptx with
    | .error e => (.error e, cache, [(cc_major, cc_minor, ptx)])
    | .ok module_image =>
      let img : ModuleImage :=
        ⟨cache.next_id, kernel_name, module_image, shared_mem_bytes⟩
      (.ok img, ⟨cache.entries ++ [(key, img)], cache.next_id + 1⟩,
        [(cc_major, cc_minor, ptx)])

theorem lookupKey_append_self (l : List (ModuleKey × ModuleImage))
    (k : ModuleKey) (v : ModuleImage) (h : lookupKey l k = none) :
    lookupKey (l ++ [(k, v)]) k = some v := by
  induction l with
  | nil => simp [lookupKey]
  | cons hd tl ih =>
    unfold lookupKey at h ⊢
    by_cases hk : hd.1 = k
    · simp [hk] at h
    · simpa [hk] using ih (by simpa [hk] using h)

/-- C4: for equal `(kernel name, shared-memory bytes, assembly, compute
capability)` keys not yet in the cache, the first `GetModuleImage` call
invokes the external compiler exactly once — with architecture major/minor
`cc / 10` and `cc % 10` — and a repeated call returns the identical cached
instance with no further compile; on compile failure the key is not inserted
(the cache is unchanged). -/
theorem getModuleImage_cache_spec
    (compile : Int → Int → String → StatusOr (List Nat))
    (n : String) (s : Nat) (p : String) (cc : Int) (cache : ModuleCache)
    (hfresh : lookupKey cache.entries (n, s, p, cc) = none) :
    (∀ image, compile (cc.tdiv 10) (cc.tmod 10) p = .ok image →
      ∃ inst,
        GetModuleImage compile n s p cc cache =
          (.ok inst, (GetModuleImage compile n s p cc cache).2.1,
            [(cc.tdiv 10, cc.tmod 10, p)]) ∧
        GetModuleImage compile n s p cc
            (GetModuleImage compile n s p cc cache).2.1 =
          (.ok inst, (GetModuleImage compile n s p cc cache).2.1, [])) ∧
    (∀ e, compile (cc.tdiv 10) (cc.tmod 10) p = .error e →
      GetModuleImage compile n s p cc cache =
        (.error e, cache, [(cc.tdiv 10, cc.tmod 10, p)])) := by
  constructor
  · intro image hok
    have h1 : GetModuleImage compile n s p cc cache =
        (.ok ⟨cache.next_id, n, image, s⟩,
          ⟨cache.entries ++ [((n, s, p, cc), ⟨cache.next_id, n, image, s⟩)],
            cache.next_id + 1⟩,
          [(cc.tdiv 10, cc.tmod 10, p)]) := by
      simp [GetModuleImage, hfresh, hok]
    refine ⟨⟨cache.next_id, n, image, s⟩, ?_, ?_⟩
    · rw [h1]
    · rw [h1]
      simp [GetModuleImage, lookupKey_append_self _ _ _ hfresh]
  · intro e herr
    simp [GetModuleImage, hfresh, herr]

/-- Witness for `getModuleImage_cache_spec` at a concrete key, cache and
compiler. -/
theorem getModuleImage_cache_spec_witness :
    (∀ image,
      (fun _ _ _ => (.ok [7] : StatusOr (List Nat))) ((81 : Int).tdiv 10)
          ((81 : Int).tmod 10) "ptx" = .ok image →
      ∃ inst,
        GetModuleImage (fun _ _ _ => .ok [7]) "add" 0 "ptx" 81 ⟨[], 0⟩ =
          (.ok inst,
            (GetModuleImage (fun _ _ _ => .ok [7]) "add" 0 "ptx" 81 ⟨[], 0⟩).2.1,
            [((81 : Int).tdiv 10, (81 : Int).tmod 10, "ptx")]) ∧
        GetModuleImage (fun _ _ _ => .ok [7]) "add" 0 "ptx" 81
            (GetModuleImage (fun _ _ _ => .ok [7]) "add" 0 "ptx" 81 ⟨[], 0⟩).2.1 =
          (.ok inst,
            (GetModuleImage (fun _ _ _ => .ok [7]) "add" 0 "ptx" 81 ⟨[], 0⟩).2.1,
            [])) ∧
    (∀ e,
      (fun _ _ _ => (.ok [7] : StatusOr (List Nat))) ((81 : Int).tdiv 10)
          ((81 : Int).tmod 10) "ptx" = .error e →
      GetModuleImage (fun _ _ _ => .ok [7]) "add" 0 "ptx" 81 ⟨[], 0⟩ =
        (.error e, ⟨[], 0⟩,
          [((81 : Int).tdiv 10, (81 : Int).tmod 10, "ptx")])) :=
  getModuleImage_cache_spec (fun _ _ _ => .ok [7]) "add" 0 "ptx" 81 ⟨[], 0⟩ rfl

/-! ### Context-scoped function loader: `ModuleImage::GetFunctionForContext` -/

/-- Maximum permitted static shared memory allocation
(`kMaxStaticSharedMemBytes` in the source). -/
def kMaxStaticSharedMemBytes : Nat := 49152

/-- Driver-level device facts consulted by `GetFunctionForContext`: module
loading and function resolution (modelled as injective-enough handle
producers) and the device/function attributes it queries.  Attribute values
are nonnegative on real devices and are modelled as `Nat`. -/
structure Device where
  loadModule : List Nat → Nat
  getFunction : Nat → String → Nat
  shared_optin : Nat
  shared_total : Nat
  shared_static : Nat

/-- Driver calls issued by `GetFunctionForContext`, in order. -/
inductive FuncDevCall where
  | ctxPush (context : Nat)
  | moduleLoad
  | funcSetCacheConfigPreferShared (f : Nat)
  | funcSetMaxDynamicSharedBytes (f : Nat) (bytes : Int)
  | ctxPop
  deriving DecidableEq, Repr

/-- Per-`ModuleImage` mutable state: the owned native modules and the
context-to-function memo map. -/
structure FuncCacheState where
  modules : List Nat
  functions : List (Nat × Nat)
  deriving DecidableEq, Repr

/-- Association-list lookup modelling `functions_.find(context)`. -/
def lookupCtx : List (Nat × Nat) → Nat → Option Nat
  | [], _ => none
  | (c, f) :: rest, context =>
    if c = context then some f else lookupCtx rest context

/-- Model of `ModuleImage::GetFunctionForContext`.  Mirrors the source: memo
hit returns the cached handle with no driver calls; on a miss it pushes the
context (popped again on every exit via `absl::Cleanup`), loads the module,
resolves and memoises the function, and then runs the shared-memory logic:
within the static limit it returns; beyond the limit it fails with
`absl::InvalidArgumentError("Shared memory requested exceeds device
resources.")` when the requirement exceeds the opt-in maximum, and otherwise
configures dynamic shared memory when the opt-in maximum exceeds the static
limit. -/
def ModuleImage.GetFunctionForContext (dev : Device) (img : ModuleImage)
    (st : FuncCacheState) (context : Nat) :
    StatusOr Nat × FuncCacheState × List FuncDevCall :=
  match lookupCtx st.functions context with
  | some f => (.ok f, st, [])
  | none =>
    let module := dev.loadModule img.module_image
    let function := dev.getFunction module img.kernel_name
    let st' : FuncCacheState :=
      ⟨st.modules ++ [module], st.functions ++ [(context, function)]⟩
    if img.shared_mem_bytes ≤ kMaxStaticSharedMemBytes then
      (.ok function, st', [.ctxPush context, .moduleLoad, .ctxPop])
    else if dev.shared_optin < img.shared_mem_bytes then
      (.error (.invalidArgument
          "Shared memory requested exceeds device resources."),
        st', [.ctxPush context, .moduleLoad, .ctxPop])
    else if kMaxStaticSharedMemBytes < dev.shared_optin then
      (.ok function, st',
        [.ctxPush context, .moduleLoad,
          .funcSetCacheConfigPreferShared function,
          .funcSetMaxDynamicSharedBytes function
            ((dev.shared_optin : Int) - (dev.shared_static : Int)),
          .ctxPop])
    else (.ok function, st', [.ctxPush context, .moduleLoad, .ctxPop])

/-- C7 counterexample: at a concrete kernel whose shared-memory requirement
(50000 bytes) exceeds both the static limit and the device's opt-in maximum,
`GetFunctionForContext` fails with the message
`"Shared memory requested exceeds device resources."`, which is not the
message `"shared memory requested exceeds device resources"` stated by the
claim. -/
theorem getFunctionForContext_message_counterexample :
    (ModuleImage.GetFunctionForContext
        ⟨fun _ => 1, fun _ _ => 2, 40000, 0, 0⟩
        ⟨0, "k", [], 50000⟩ ⟨[], []⟩ 0).1 =
      .error (.invalidArgument
        "Shared memory requested exceeds device resources.") ∧
    "Shared memory requested exceeds device resources." ≠
      "shared memory requested exceeds device resources" := by
  constructor
  · rfl
  · decide

/-- C7 (amended): for a kernel whose static shared-memory requirement exceeds
the device's default static limit (49152 bytes) and a context not yet
memoised, `GetFunctionForContext` fails — with the error message
`"Shared memory requested exceeds device resources."` — exactly when the
requirement also exceeds the device's opt-in maximum; otherwise it succeeds
and configures dynamic shared memory (cache preference plus a dynamic
shared-memory attribute of opt-in maximum minus already-used static shared
memory). -/
theorem getFunctionForContext_shared_mem_spec (dev : Device)
    (img : ModuleImage) (st : FuncCacheState) (context : Nat)
    (hmiss : lookupCtx st.functions context = none)
    (hbig : kMaxStaticSharedMemBytes < img.shared_mem_bytes) :
    ((ModuleImage.GetFunctionForContext dev img st context).1 =
        .error (.invalidArgument
          "Shared memory requested exceeds device resources.") ↔
      dev.shared_optin < img.shared_mem_bytes) ∧
    (img.shared_mem_bytes ≤ dev.shared_optin →
      ∃ f, (ModuleImage.GetFunctionForContext dev img st context).1 = .ok f ∧
        (ModuleImage.GetFunctionForContext dev img st context).2.2 =
          [.ctxPush context, .moduleLoad,
            .funcSetCacheConfigPreferShared f,
            .funcSetMaxDynamicSharedBytes f
              ((dev.shared_optin : Int) - (dev.shared_static : Int)),
            .ctxPop]) := by
  have hnotle : ¬ img.shared_mem_bytes ≤ kMaxStaticSharedMemBytes :=
    not_le.mpr hbig
  constructor
  · constructor
    · intro h
      by_contra hc
      push_neg at hc
      have hoptin : kMaxStaticSharedMemBytes < dev.shared_optin :=
        lt_of_lt_of_le hbig hc
      simp [ModuleImage.GetFunctionForContext, hmiss, hnotle,
        not_lt.mpr hc, hoptin] at h
    · intro h
      simp [ModuleImage.GetFunctionForContext, hmiss, hnotle, h]
  · intro hle
    have hoptin : kMaxStaticSharedMemBytes < dev.shared_optin :=
      lt_of_lt_of_le hbig hle
    refine ⟨dev.getFunction (dev.loadModule img.module_image) img.kernel_name,
      ?_, ?_⟩ <;>
      simp [ModuleImage.GetFunctionForContext, hmiss, hnotle,
        not_lt.mpr hle, hoptin]

/-- Witness for `getFunctionForContext_shared_mem_spec` at a concrete device
with opt-in maximum 65536 and requirement 50000. -/
theorem getFunctionForContext_shared_mem_spec_witness :
    (((ModuleImage.GetFunctionForContext
          ⟨fun _ => 1, fun _ _ => 2, 65536, 0, 0⟩
          ⟨0, "k", [], 50000⟩ ⟨[], []⟩ 0).1 =
        .error (.invalidArgument
          "Shared memory requested exceeds device resources.") ↔
      (65536 : Nat) < 50000) ∧
    ((50000 : Nat) ≤ 65536 →
      ∃ f, (ModuleImage.GetFunctionForContext
          ⟨fun _ => 1, fun _ _ => 2, 65536, 0, 0⟩
          ⟨0, "k", [], 50000⟩ ⟨[], []⟩ 0).1 = .ok f ∧
        (ModuleImage.GetFunctionForContext
          ⟨fun _ => 1, fun _ _ => 2, 65536, 0, 0⟩
          ⟨0, "k", [], 50000⟩ ⟨[], []⟩ 0).2.2 =
          [.ctxPush 0, .moduleLoad,
            .funcSetCacheConfigPreferShared f,
            .funcSetMaxDynamicSharedBytes f ((65536 : Int) - (0 : Int)),
            .ctxPop])) :=
  getFunctionForContext_shared_mem_spec
    ⟨fun _ => 1, fun _ _ => 2, 65536, 0, 0⟩
    ⟨0, "k", [], 50000⟩ ⟨[], []⟩ 0 rfl (by decide)

/-! ### Kernel and parameter marshaling: `KernelCall::Launch` -/

/-- `kNumThreadsPerWarp` from the source. -/
def kNumThreadsPerWarp : Nat := 32

/-- Model of `Kernel`: an immutable launch descriptor.  `block_dim_x` is
`num_warps * kNumThreadsPerWarp`, exactly as set by the constructor. -/
structure Kernel where
  kernel_name : String
  block_dim_x : Nat
  shared_mem_bytes : Nat
  ptx : String
  ttir : String
  compute_capability : Int
  deriving DecidableEq, Repr

/-- Model of the `Kernel` constructor (`Kernel::Kernel`). -/
def Kernel.make (kernel_name : String) (num_warps : Nat)
    (shared_mem_bytes : Nat) (ptx ttir : String) (compute_capability : Int) :
    Kernel :=
  ⟨kernel_name, num_warps * kNumThreadsPerWarp, shared_mem_bytes, ptx, ttir,
    compute_capability⟩

/-- Model of `KernelCall::Parameter::Array`. -/
structure ParameterArray where
  bytes_to_zero : Nat
  ptr_divisibility : Nat
  deriving DecidableEq, Repr

/-- Model of the `std::variant<Array, bool, int32_t, uint32_t, int64_t,
uint64_t>` held by `KernelCall::Parameter`. -/
inductive ParameterValue where
  | array (a : ParameterArray)
  | boolean (b : Bool)
  | i32 (x : Int)
  | u32 (x : Nat)
  | i64 (x : Int)
  | u64 (x : Nat)
  deriving DecidableEq, Repr

/-- Model of `KernelCall::Parameter`. -/
structure Parameter where
  value : ParameterValue
  deriving DecidableEq, Repr

/-- Model of `KernelCall`: a kernel, a 3-element grid, an ordered parameter
list. -/
structure KernelCall where
  kernel : Kernel
  grid : Nat × Nat × Nat
  parameters : List Parameter
  deriving DecidableEq, Repr

/-- One argument slot of the native argument-pointer array built by
`KernelCall::Launch`: for an array parameter the slot holds the address of
the buffer-pointer variable (modelled by the buffer address it designates);
for a scalar it holds the address of the stored value (modelled by the
value). -/
inductive LaunchArg where
  | arrayPtr (addr : Nat)
  | scalar (v : ParameterValue)
  deriving DecidableEq, Repr

/-- Device calls issued by `KernelCall::Launch` (and the `cuLaunchKernel`
issued through `Kernel::Launch`), in program order on the stream. -/
inductive LaunchDevCall where
  | memsetD8Async (addr : Nat) (value : Nat) (bytes : Nat)
  | launchKernel (name : String) (grid : Nat × Nat × Nat)
      (block_dim_x : Nat) (shared_mem_bytes : Nat) (args : List LaunchArg)
  deriving DecidableEq, Repr

/-- Driver outcomes for the device calls a `KernelCall::Launch` can issue:
the result of each `cuMemsetD8Async` (by address and byte count) and the
result of `Kernel::Launch` (module resolution plus `cuLaunchKernel`,
collapsed into one outcome as the claims do not distinguish them). -/
structure LaunchDriver where
  memsetResult : Nat → Nat → StatusOr Unit
  launchResult : StatusOr Unit

/-- `%p` pointer formatting used by the alignment error message. -/
def formatPtr (addr : Nat) : String :=
  "0x" ++ (Nat.toDigits 16 addr).asString

/-- The `absl::StrFormat("Parameter %zu (%p) is not divisible by %d.", ...)`
message. -/
def alignErrorMsg (i : Nat) (addr : Nat) (d : Nat) : String :=
  "Parameter " ++ toString i ++ " (" ++ formatPtr addr ++
    ") is not divisible by " ++ toString d ++ "."

/-- Loop body of `KernelCall::Launch`: iterates the parameters in order with
a separate cursor `b` into the buffer array (advanced only for array
parameters), checks divisibility, issues zero-fill memsets, and accumulates
the argument-pointer array; at the end delegates to `Kernel::Launch`. -/
def launchLoop (driver : LaunchDriver) (k : Kernel) (grid : Nat × Nat × Nat)
    (buffers : Nat → Nat) :
    List Parameter → Nat → Nat → List LaunchArg → List LaunchDevCall →
    StatusOr Unit × List LaunchDevCall
  | [], _, _, args, trace =>
    (driver.launchResult, trace ++
      [.launchKernel k.kernel_name grid k.block_dim_x k.shared_mem_bytes args])
  | p :: rest, i, b, args, trace =>
    match p.value with
    | .array a =>
      let ptr := buffers b
      if a.ptr_divisibility ≠ 0 ∧ ptr % a.ptr_divisibility ≠ 0 then
        (.error (.invalidArgument (alignErrorMsg i ptr a.ptr_divisibility)),
          trace)
      else if 0 < a.bytes_to_zero then
        match driver.memsetResult ptr a.bytes_to_zero with
        | .error e => (.error e, trace ++ [.memsetD8Async ptr 0 a.bytes_to_zero])
        | .ok _ =>
          launchLoop driver k grid buffers rest (i + 1) (b + 1)
            (args ++ [.arrayPtr ptr])
            (trace ++ [.memsetD8Async ptr 0 a.bytes_to_zero])
      else
        launchLoop driver k grid buffers rest (i + 1) (b + 1)
          (args ++ [.arrayPtr ptr]) trace
    | v =>
      launchLoop driver k grid buffers rest (i + 1) b
        (args ++ [.scalar v]) trace

/-- Model of `KernelCall::Launch`: the returned trace lists every device call
issued on behalf of this launch. -/
def KernelCall.Launch (driver : LaunchDriver) (kc : KernelCall)
    (buffers : Nat → Nat) : StatusOr Unit × List LaunchDevCall :=
  launchLoop driver kc.kernel kc.grid buffers kc.parameters 0 0 [] []

/-- First misaligned array parameter (index, buffer address, divisor) found
by the order of traversal of `KernelCall::Launch`, if any. -/
def firstMisaligned (buffers : Nat → Nat) :
    List Parameter → Nat → Nat → Option (Nat × Nat × Nat)
  | [], _, _ => none
  | p :: rest, i, b =>
    match p.value with
    | .array a =>
      let ptr := buffers b
      if a.ptr_divisibility ≠ 0 ∧ ptr % a.ptr_divisibility ≠ 0 then
        some (i, ptr, a.ptr_divisibility)
      else firstMisaligned buffers rest (i + 1) (b + 1)
    | _ => firstMisaligned buffers rest (i + 1) b

/-- Zero-fill memsets issued for the array parameters strictly preceding the
first misaligned parameter. -/
def zeroFillsBefore (buffers : Nat → Nat) :
    List Parameter → Nat → List LaunchDevCall
  | [], _ => []
  | p :: rest, b =>
    match p.value with
    | .array a =>
      let ptr := buffers b
      if a.ptr_divisibility ≠ 0 ∧ ptr % a.ptr_divisibility ≠ 0 then []
      else if 0 < a.bytes_to_zero then
        .memsetD8Async ptr 0 a.bytes_to_zero :: zeroFillsBefore buffers rest (b + 1)
      else zeroFillsBefore buffers rest (b + 1)
    | _ => zeroFillsBefore buffers rest b

theorem zeroFillsBefore_only_memsets (buffers : Nat → Nat) :
    ∀ (params : List Parameter) (b : Nat),
      ∀ c ∈ zeroFillsBefore buffers params b,
        ∃ addr bytes, c = .memsetD8Async addr 0 bytes := by
  intro params
  induction params with
  | nil => intro b c hc; simp [zeroFillsBefore] at hc
  | cons p rest ih =>
    obtain ⟨pv⟩ := p
    intro b c hc
    cases pv with
    | array a =>
      simp only [zeroFillsBefore] at hc
      by_cases hmis : a.ptr_divisibility ≠ 0 ∧ buffers b % a.ptr_divisibility ≠ 0
      · rw [if_pos hmis] at hc
        simp at hc
      · rw [if_neg hmis] at hc
        by_cases hz : 0 < a.bytes_to_zero
        · rw [if_pos hz] at hc
          rcases List.mem_cons.mp hc with hc | hc
          · exact ⟨buffers b, a.bytes_to_zero, hc⟩
          · exact ih (b + 1) c hc
        · rw [if_neg hz] at hc
          exact ih (b + 1) c hc
    | boolean v => simp only [zeroFillsBefore] at hc; exact ih b c hc
    | i32 v => simp only [zeroFillsBefore] at hc; exact ih b c hc
    | u32 v => simp only [zeroFillsBefore] at hc; exact ih b c hc
    | i64 v => simp only [zeroFillsBefore] at hc; exact ih b c hc
    | u64 v => simp only [zeroFillsBefore] at hc; exact ih b c hc

theorem launchLoop_misaligned (driver : LaunchDriver) (k : Kernel)
    (grid : Nat × Nat × Nat) (buffers : Nat → Nat)
    (hms : ∀ a n, driver.memsetResult a n = .ok ()) :
    ∀ (params : List Parameter) (i b : Nat) (args : List LaunchArg)
      (trace : List LaunchDevCall) (j ptr d : Nat),
      firstMisaligned buffers params i b = some (j, ptr, d) →
      launchLoop driver k grid buffers params i b args trace =
        (.error (.invalidArgument (alignErrorMsg j ptr d)),
          trace ++ zeroFillsBefore buffers params b) := by
  intro params
  induction params with
  | nil => intro i b args trace j ptr d h; simp [firstMisaligned] at h
  | cons p rest ih =>
    obtain ⟨pv⟩ := p
    intro i b args trace j ptr d h
    cases pv with
    | array a =>
      simp only [firstMisaligned] at h
      simp only [launchLoop, zeroFillsBefore]
      by_cases hmis : a.ptr_divisibility ≠ 0 ∧ buffers b % a.ptr_divisibility ≠ 0
      · rw [if_pos hmis] at h
        injection h with h
        injection h with h1 h
        injection h with h2 h3
        subst h1
        subst h2
        subst h3
        rw [if_pos hmis, if_pos hmis]
        simp
      · rw [if_neg hmis] at h
        rw [if_neg hmis, if_neg hmis]
        by_cases hz : 0 < a.bytes_to_zero
        · rw [if_pos hz, if_pos hz, hms]
          rw [ih (i + 1) (b + 1) _ _ j ptr d h]
          simp
        · rw [if_neg hz, if_neg hz]
          exact ih (i + 1) (b + 1) _ _ j ptr d h
    | boolean v =>
      simp only [firstMisaligned] at h
      simp only [launchLoop, zeroFillsBefore]
      exact ih (i + 1) b _ _ j ptr d h
    | i32 v =>
      simp only [firstMisaligned] at h
      simp only [launchLoop, zeroFillsBefore]
      exact ih (i + 1) b _ _ j ptr d h
    | u32 v =>
      simp only [firstMisaligned] at h
      simp only [launchLoop, zeroFillsBefore]
      exact ih (i + 1) b _ _ j ptr d h
    | i64 v =>
      simp only [firstMisaligned] at h
      simp only [launchLoop, zeroFillsBefore]
      exact ih (i + 1) b _ _ j ptr d h
    | u64 v =>
      simp only [firstMisaligned] at h
      simp only [launchLoop, zeroFillsBefore]
      exact ih (i + 1) b _ _ j ptr d h

/-- C3 counterexample: a launch whose first array parameter requests a
64-byte zero-fill and whose second array parameter (bound to address 8) has
divisor 16 fails with the `InvalidArgumentError` naming parameter 1, address
8 and divisor 16 — but the memset for parameter 0 has already been issued,
so the claim's "no device calls are issued for that launch" is false. -/
theorem kernelCall_misaligned_counterexample :
    KernelCall.Launch
        ⟨fun _ _ => .ok (), .ok ()⟩
        ⟨Kernel.make "k" 1 0 "p" "t" 80, (1, 1, 1),
          [⟨.array ⟨64, 0⟩⟩, ⟨.array ⟨0, 16⟩⟩]⟩
        (fun j => if j = 0 then 256 else 8) =
      (.error (.invalidArgument (alignErrorMsg 1 8 16)),
        [.memsetD8Async 256 0 64]) ∧
    [LaunchDevCall.memsetD8Async 256 0 64] ≠ ([] : List LaunchDevCall) := by
  constructor
  · rfl
  · simp

/-- C3 (amended): if some array parameter of a `KernelCall::Launch` has a
nonzero alignment divisor that its buffer address does not satisfy (and no
memset fails first), the launch fails with an `InvalidArgumentError` naming
the first such parameter's index, address and divisor; no kernel launch is
issued, and the only device calls issued are the zero-fill memsets of the
array parameters preceding the faulting one. -/
theorem kernelCall_misaligned_spec (driver : LaunchDriver) (kc : KernelCall)
    (buffers : Nat → Nat) (j ptr d : Nat)
    (hms : ∀ a n, driver.memsetResult a n = .ok ())
    (h : firstMisaligned buffers kc.parameters 0 0 = some (j, ptr, d)) :
    KernelCall.Launch driver kc buffers =
      (.error (.invalidArgument (alignErrorMsg j ptr d)),
        zeroFillsBefore buffers kc.parameters 0) ∧
    ∀ c ∈ (KernelCall.Launch driver kc buffers).2,
      ∃ addr bytes, c = .memsetD8Async addr 0 bytes := by
  have hmain := launchLoop_misaligned driver kc.kernel kc.grid buffers hms
    kc.parameters 0 0 [] [] j ptr d h
  rw [KernelCall.Launch, hmain]
  refine ⟨by simp, ?_⟩
  simp only [List.nil_append]
  exact zeroFillsBefore_only_memsets buffers kc.parameters 0

/-- Witness for `kernelCall_misaligned_spec` at the concrete launch of
`kernelCall_misaligned_counterexample`. -/
theorem kernelCall_misaligned_spec_witness :
    KernelCall.Launch ⟨fun _ _ => .ok (), .ok ()⟩
        ⟨Kernel.make "k" 1 0 "p" "t" 80, (1, 1, 1),
          [⟨.array ⟨64, 0⟩⟩, ⟨.array ⟨0, 16⟩⟩]⟩
        (fun j => if j = 0 then 256 else 8) =
      (.error (.invalidArgument (alignErrorMsg 1 8 16)),
        zeroFillsBefore (fun j => if j = 0 then 256 else 8)
          [⟨.array ⟨64, 0⟩⟩, ⟨.array ⟨0, 16⟩⟩] 0) ∧
    ∀ c ∈ (KernelCall.Launch ⟨fun _ _ => .ok (), .ok ()⟩
        ⟨Kernel.make "k" 1 0 "p" "t" 80, (1, 1, 1),
          [⟨.array ⟨64, 0⟩⟩, ⟨.array ⟨0, 16⟩⟩]⟩
        (fun j => if j = 0 then 256 else 8)).2,
      ∃ addr bytes, c = .memsetD8Async addr 0 bytes :=
  kernelCall_misaligned_spec ⟨fun _ _ => .ok (), .ok ()⟩
    ⟨Kernel.make "k" 1 0 "p" "t" 80, (1, 1, 1),
      [⟨.array ⟨64, 0⟩⟩, ⟨.array ⟨0, 16⟩⟩]⟩
    (fun j => if j = 0 then 256 else 8) 1 8 16
    (fun _ _ => rfl) rfl

/-! ### Serialization: `FromProto` / `ToProto` -/

/-- Model of the `jax_triton.TritonKernel` proto message. -/
structure TritonKernelProto where
  kernel_name : String
  num_warps : Nat
  shared_mem_bytes : Nat
  ptx : String
  ttir : String
  compute_capability : Int
  deriving DecidableEq, Repr

/-- Model of the `jax_triton.TritonKernelCall.Parameter` proto message (its
`value` oneof; `unset` is the `default:` case of `value_case()`). -/
inductive ParameterProto where
  | array (bytes_to_zero : Nat) (ptr_divisibility : Nat)
  | boolean (b : Bool)
  | i32 (x : Int)
  | u32 (x : Nat)
  | i64 (x : Int)
  | u64 (x : Nat)
  | unset
  deriving DecidableEq, Repr

/-- Model of the `jax_triton.TritonKernelCall` proto message. -/
structure TritonKernelCallProto where
  kernel : TritonKernelProto
  grid_0 : Nat
  grid_1 : Nat
  grid_2 : Nat
  parameters : List ParameterProto
  deriving DecidableEq, Repr

/-- Model of the `jax_triton.TritonAutotunedKernelCall` proto message
(configs are `(kernel_call, description)` pairs; aliases are
`(input_buffer_idx, output_buffer_idx, buffer_size_bytes)` triples). -/
structure TritonAutotunedKernelCallProto where
  name : String
  configs : List (TritonKernelCallProto × String)
  input_output_aliases : List (Nat × Nat × Nat)
  deriving DecidableEq, Repr

/-- Model of `Kernel::FromProto`. -/
def Kernel.FromProto (p : TritonKernelProto) : Kernel :=
  Kernel.make p.kernel_name p.num_warps p.shared_mem_bytes p.ptx p.ttir
    p.compute_capability

/-- Model of `Kernel::ToProto` (`num_warps` is recovered as
`block_dim_x_ / kNumThreadsPerWarp`). -/
def Kernel.ToProto (k : Kernel) : TritonKernelProto :=
  ⟨k.kernel_name, k.block_dim_x / kNumThreadsPerWarp, k.shared_mem_bytes,
    k.ptx, k.ttir, k.compute_capability⟩

/-- Model of `KernelCall::Parameter::FromProto` (rejects an unset oneof with
`InvalidArgumentError("Unknown scalar parameter type.")`). -/
def Parameter.FromProto : ParameterProto → StatusOr Parameter
  | .array btz d => .ok ⟨.array ⟨btz, d⟩⟩
  | .boolean b => .ok ⟨.boolean b⟩
  | .i32 x => .ok ⟨.i32 x⟩
  | .u32 x => .ok ⟨.u32 x⟩
  | .i64 x => .ok ⟨.i64 x⟩
  | .u64 x => .ok ⟨.u64 x⟩
  | .unset => .error (.invalidArgument "Unknown scalar parameter type.")

/-- Model of `KernelCall::Parameter::ToProto`. -/
def Parameter.ToProto : Parameter → ParameterProto
  | ⟨.array a⟩ => .array a.bytes_to_zero a.ptr_divisibility
  | ⟨.boolean b⟩ => .boolean b
  | ⟨.i32 x⟩ => .i32 x
  | ⟨.u32 x⟩ => .u32 x
  | ⟨.i64 x⟩ => .i64 x
  | ⟨.u64 x⟩ => .u64 x

/-- The parameter-decoding loop of `KernelCall::FromProto`
(`JAX_ASSIGN_OR_RETURN` aborts at the first failing parameter). -/
def parametersFromProto : List ParameterProto → StatusOr (List Parameter)
  | [] => .ok []
  | p :: rest =>
    match Parameter.FromProto p with
    | .error e => .error e
    | .ok param =>
      match parametersFromProto rest with
      | .error e => .error e
      | .ok params => .ok (param :: params)

/-- Model of `KernelCall::FromProto`. -/
def KernelCall.FromProto (p : TritonKernelCallProto) : StatusOr KernelCall :=
  match parametersFromProto p.parameters with
  | .error e => .error e
  | .ok parameters =>
    .ok ⟨Kernel.FromProto p.kernel, (p.grid_0, p.grid_1, p.grid_2), parameters⟩

/-- Model of `KernelCall::ToProto`. -/
def KernelCall.ToProto (kc : KernelCall) : TritonKernelCallProto :=
  ⟨kc.kernel.ToProto, kc.grid.1, kc.grid.2.1, kc.grid.2.2,
    kc.parameters.map Parameter.ToProto⟩

/-- Model of `AutotunedKernelCall::Config`. -/
structure Config where
  kernel_call : KernelCall
  description : String
  deriving DecidableEq, Repr

/-- Model of `AutotunedKernelCall`: name, mutable config list, aliasing
triples, and the one-shot tuning state (`absl::once_flag autotune_once_`,
modelled as the boolean "has the gate fired", plus the stored
`autotune_status_`, initialised to `absl::OkStatus()`). -/
structure AutotunedKernelCall where
  name : String
  configs : List Config
  input_output_aliases : List (Nat × Nat × Nat)
  autotune_once : Bool
  autotune_status : StatusOr Unit

/-- The config-decoding loop of `AutotunedKernelCall::FromProto`. -/
def configsFromProto : List (TritonKernelCallProto × String) →
    StatusOr (List Config)
  | [] => .ok []
  | c :: rest =>
    match KernelCall.FromProto c.1 with
    | .error e => .error e
    | .ok kernel_call =>
      match configsFromProto rest with
      | .error e => .error e
      | .ok configs => .ok (⟨kernel_call, c.2⟩ :: configs)

/-- Model of `AutotunedKernelCall::FromProto` (a freshly constructed object:
the one-shot gate has not fired and the stored status is `OkStatus`). -/
def AutotunedKernelCall.FromProto (p : TritonAutotunedKernelCallProto) :
    StatusOr AutotunedKernelCall :=
  match configsFromProto p.configs with
  | .error e => .error e
  | .ok configs => .ok ⟨p.name, configs, p.input_output_aliases, false, .ok ()⟩

/-- Model of `AutotunedKernelCall::ToProto`. -/
def AutotunedKernelCall.ToProto (a : AutotunedKernelCall) :
    TritonAutotunedKernelCallProto :=
  ⟨a.name, a.configs.map (fun c => (c.kernel_call.ToProto, c.description)),
    a.input_output_aliases⟩

theorem parameter_round_trip (p : Parameter) :
    Parameter.FromProto p.ToProto = .ok p := by
  obtain ⟨pv⟩ := p
  cases pv <;> rfl

theorem kernel_round_trip (k : Kernel)
    (h : kNumThreadsPerWarp ∣ k.block_dim_x) :
    Kernel.FromProto k.ToProto = k := by
  have hdb : k.block_dim_x / kNumThreadsPerWarp * kNumThreadsPerWarp =
      k.block_dim_x := Nat.div_mul_cancel h
  simp only [Kernel.FromProto, Kernel.ToProto, Kernel.make, hdb]

theorem parameters_round_trip (params : List Parameter) :
    parametersFromProto (params.map Parameter.ToProto) = .ok params := by
  induction params with
  | nil => rfl
  | cons p rest ih =>
    simp only [List.map_cons, parametersFromProto, parameter_round_trip p, ih]

theorem kernelCall_round_trip (kc : KernelCall)
    (h : kNumThreadsPerWarp ∣ kc.kernel.block_dim_x) :
    KernelCall.FromProto kc.ToProto = .ok kc := by
  simp only [KernelCall.FromProto, KernelCall.ToProto,
    parameters_round_trip kc.parameters, kernel_round_trip kc.kernel h]

theorem configs_round_trip (configs : List Config)
    (h : ∀ c ∈ configs, kNumThreadsPerWarp ∣ c.kernel_call.kernel.block_dim_x) :
    configsFromProto
      (configs.map (fun c => (c.kernel_call.ToProto, c.description))) =
      .ok configs := by
  induction configs with
  | nil => rfl
  | cons c rest ih =>
    simp only [List.map_cons, configsFromProto,
      kernelCall_round_trip c.kernel_call (h c (List.mem_cons_self c rest)),
      ih (fun c' hc' => h c' (List.mem_cons_of_mem c hc'))]

/-- C9: encoding a `KernelCall` (resp. an `AutotunedKernelCall`) with
`ToProto` and decoding it back with `FromProto` reproduces an equivalent
object: the same kernel fields, grid, and ordered parameter list (for a
`KernelCall`, recovered exactly), and the same name, configs and aliasing
triples (for an `AutotunedKernelCall`; the one-shot tuning state is not
serialized and comes back freshly initialised).  The divisibility hypotheses
record that every `Kernel` the program builds has
`block_dim_x = num_warps * kNumThreadsPerWarp` (its only constructor). -/
theorem proto_round_trip_spec (kc : KernelCall) (a : AutotunedKernelCall)
    (h1 : kNumThreadsPerWarp ∣ kc.kernel.block_dim_x)
    (h2 : ∀ c ∈ a.configs,
      kNumThreadsPerWarp ∣ c.kernel_call.kernel.block_dim_x) :
    KernelCall.FromProto kc.ToProto = .ok kc ∧
    ∃ a', AutotunedKernelCall.FromProto a.ToProto = .ok a' ∧
      a'.name = a.name ∧ a'.configs = a.configs ∧
      a'.input_output_aliases = a.input_output_aliases := by
  refine ⟨kernelCall_round_trip kc h1,
    ⟨a.name, a.configs, a.input_output_aliases, false, .ok ()⟩, ?_, rfl, rfl, rfl⟩
  simp only [AutotunedKernelCall.FromProto, AutotunedKernelCall.ToProto,
    configs_round_trip a.configs h2]

/-- Witness for `proto_round_trip_spec` at a concrete kernel call and a
concrete autotuned call with one config and one aliasing triple. -/
theorem proto_round_trip_spec_witness :
    KernelCall.FromProto
        (KernelCall.ToProto ⟨Kernel.make "k" 4 128 "p" "t" 80, (8, 1, 1),
          [⟨.array ⟨64, 16⟩⟩, ⟨.i32 (-3)⟩]⟩) =
      .ok ⟨Kernel.make "k" 4 128 "p" "t" 80, (8, 1, 1),
        [⟨.array ⟨64, 16⟩⟩, ⟨.i32 (-3)⟩]⟩ ∧
    ∃ a', AutotunedKernelCall.FromProto
        (AutotunedKernelCall.ToProto
          ⟨"fused", [⟨⟨Kernel.make "k" 4 128 "p" "t" 80, (8, 1, 1),
            [⟨.u64 9⟩]⟩, "cfg0"⟩], [(0, 1, 32)], false, .ok ()⟩) = .ok a' ∧
      a'.name = "fused" ∧
      a'.configs = [⟨⟨Kernel.make "k" 4 128 "p" "t" 80, (8, 1, 1),
        [⟨.u64 9⟩]⟩, "cfg0"⟩] ∧
      a'.input_output_aliases = [(0, 1, 32)] :=
  proto_round_trip_spec
    ⟨Kernel.make "k" 4 128 "p" "t" 80, (8, 1, 1),
      [⟨.array ⟨64, 16⟩⟩, ⟨.i32 (-3)⟩]⟩
    ⟨"fused", [⟨⟨Kernel.make "k" 4 128 "p" "t" 80, (8, 1, 1),
      [⟨.u64 9⟩]⟩, "cfg0"⟩], [(0, 1, 32)], false, .ok ()⟩
    ⟨4, rfl⟩
    (by intro c hc
        simp only [List.mem_singleton] at hc
        exact hc ▸ ⟨4, rfl⟩)

/-! ### Decompression: `ZlibUncompress` -/

/-- Outcome of one `uncompress` call of the zlib collaborator for a given
output-buffer capacity: `Z_OK` with the uncompressed bytes, `Z_BUF_ERROR`
(output buffer too small), or any other zlib error. -/
inductive UncompressResult where
  | ok (data : List Nat)
  | bufError
  | otherError
  deriving DecidableEq, Repr

/-- The retry loop of `ZlibUncompress`, parametrised by the decompressor
(capacity ↦ outcome).  The source loop is `while (true)`; it is embedded
with explicit fuel, `none` meaning the loop has not finished within `fuel`
iterations.  On `Z_BUF_ERROR` the buffer size is doubled
(`dest_len *= 2`). -/
def zlibUncompressLoop (uz : Nat → UncompressResult) :
    Nat → Nat → Option (StatusOr (List Nat))
  | 0, _ => none
  | fuel + 1, dest_len =>
    match uz dest_len with
    | .ok data => some (.ok data)
    | .bufError => zlibUncompressLoop uz fuel (dest_len * 2)
    | .otherError =>
      some (.error (.invalidArgument "Failed to uncompress opaque data."))

/-- Model of `ZlibUncompress`: the initial size guess is
`5 * compressed.size()`. -/
def ZlibUncompress (uz : Nat → UncompressResult) (compressedLen : Nat)
    (fuel : Nat) : Option (StatusOr (List Nat)) :=
  zlibUncompressLoop uz fuel (5 * compressedLen)

theorem zlibUncompressLoop_reaches (uz : Nat → UncompressResult)
    (data : List Nat)
    (hvalid : ∀ cap, uz cap = if data.length ≤ cap then .ok data else .bufError) :
    ∀ (k d : Nat), 0 < d → data.length ≤ d * 2 ^ k →
      zlibUncompressLoop uz (k + 1) d = some (.ok data) := by
  intro k
  induction k with
  | zero =>
    intro d _ hle
    simp only [pow_zero, Nat.mul_one] at hle
    simp [zlibUncompressLoop, hvalid, hle]
  | succ k ih =>
    intro d hd hle
    by_cases hnow : data.length ≤ d
    · simp [zlibUncompressLoop, hvalid, hnow]
    · have : zlibUncompressLoop uz (k + 1 + 1) d =
          zlibUncompressLoop uz (k + 1) (d * 2) := by
        simp [zlibUncompressLoop, hvalid, hnow]
      rw [this]
      exact ih (d * 2) (by positivity)
        (by calc data.length ≤ d * 2 ^ (k + 1) := hle
              _ = d * 2 * 2 ^ k := by ring)

/-- C8: over a valid compressed stream with true uncompressed size
`data.length`, the geometric-growth loop of `ZlibUncompress` terminates with
the full uncompressed data for some finite fuel — even when the initial
guess `5 * n` under-estimates the true size (no hypothesis relates them) —
and over a stream on which the decompressor reports any error other than
buffer-too-small, it fails with the `ParseError`
`"Failed to uncompress opaque data."`. -/
theorem zlibUncompress_spec (uz uzbad : Nat → UncompressResult) (n : Nat)
    (data : List Nat) (hn : 0 < n)
    (hvalid : ∀ cap, uz cap = if data.length ≤ cap then .ok data else .bufError)
    (hbad : ∀ cap, uzbad cap = .otherError) :
    (∃ fuel, ZlibUncompress uz n fuel = some (.ok data)) ∧
    (∀ fuel, 0 < fuel → ZlibUncompress uzbad n fuel =
      some (.error (.invalidArgument "Failed to uncompress opaque data."))) := by
  constructor
  · refine ⟨data.length + 1, ?_⟩
    apply zlibUncompressLoop_reaches uz data hvalid
    · positivity
    · calc data.length ≤ 2 ^ data.length := (Nat.lt_two_pow data.length).le
        _ ≤ 5 * n * 2 ^ data.length :=
          Nat.le_mul_of_pos_left _ (by positivity)
  · intro fuel hfuel
    obtain ⟨f, rfl⟩ := Nat.exists_eq_succ_of_ne_zero hfuel.ne'
    simp [ZlibUncompress, zlibUncompressLoop, hbad]

/-- Witness for `zlibUncompress_spec`: a stream of one compressed byte whose
uncompressed form has 11 bytes — the initial guess `5 * 1 = 5`
under-estimates it, the loop doubles to 10, then 20, and succeeds — and a
stream on which the decompressor always reports a non-buffer error. -/
theorem zlibUncompress_spec_witness :
    ((∃ fuel, ZlibUncompress
        (fun cap => if (List.replicate 11 7).length ≤ cap then
          .ok (List.replicate 11 7) else .bufError) 1 fuel =
        some (.ok (List.replicate 11 7))) ∧
      (∀ fuel, 0 < fuel → ZlibUncompress (fun _ => .otherError) 1 fuel =
        some (.error (.invalidArgument "Failed to uncompress opaque data.")))) :=
  zlibUncompress_spec
    (fun cap => if (List.replicate 11 7).length ≤ cap then
      .ok (List.replicate 11 7) else .bufError)
    (fun _ => .otherError) 1 (List.replicate 11 7) (by decide)
    (fun _ => rfl) (fun _ => rfl)

/-! ### Autotuning: `AutotunedKernelCall::Autotune` and `::Launch` -/

/-- Device memory: the byte stored at each device address. -/
def Mem := Nat → Nat

/-- `kBenchmarkTimeMillis` from the source (`10.`, modelled as `Rat`). -/
def kBenchmarkTimeMillis : Rat := 10

/-- Driver-level oracle for the benchmarking machinery: `time kc n` is the
outcome of `Benchmark(stream, kc, buffers, n)`'s event instrumentation (the
elapsed milliseconds, or the first driver error raised by any of its event /
launch calls); `effect kc` is the device-memory effect of one execution of
the kernel bound by `kc`; `launchResult kc` is the driver outcome of a plain
post-tuning `kc.Launch`. -/
structure BenchOracle where
  time : KernelCall → Nat → StatusOr Rat
  effect : KernelCall → Mem → Mem
  launchResult : KernelCall → StatusOr Unit

/-- Model of `Benchmark`: one warm-up launch plus `num_iterations` timed
launches of the kernel, with the measured time (or a driver failure)
supplied by the oracle. -/
def Benchmark (o : BenchOracle) (kernel_call : KernelCall)
    (num_iterations : Nat) (mem : Mem) : StatusOr (Rat × Mem) :=
  match o.time kernel_call num_iterations with
  | .error e => .error e
  | .ok t => .ok (t, (o.effect kernel_call)^[num_iterations + 1] mem)

/-- Read `size` bytes of device memory starting at `addr`
(`cuMemcpyDtoHAsync`). -/
def readBytes (mem : Mem) (addr size : Nat) : List Nat :=
  (List.range size).map (fun j => mem (addr + j))

/-- Write the given bytes to device memory starting at `addr`
(`cuMemcpyHtoDAsync`). -/
def writeBytes (mem : Mem) (addr : Nat) (bytes : List Nat) : Mem :=
  fun a =>
    if addr ≤ a ∧ a - addr < bytes.length then bytes.getD (a - addr) 0
    else mem a

/-- `std::unordered_map` insert-or-assign, as performed by
`input_copies[input_idx] = std::move(input_copy)`. -/
def assocSet : List (Nat × List Nat) → Nat → List Nat → List (Nat × List Nat)
  | [], k, v => [(k, v)]
  | (k', v') :: rest, k, v =>
    if k' = k then (k, v) :: rest else (k', v') :: assocSet rest k v

/-- `std::unordered_map::operator[]` read: the stored vector, or a
default-constructed (empty) one when the key is absent — as in the restore
loop's `input_copies[input_idx]`. -/
def assocGet : List (Nat × List Nat) → Nat → List Nat
  | [], _ => []
  | (k', v') :: rest, k => if k' = k then v' else assocGet rest k

/-- Snapshot step of `Autotune`: for every aliasing triple whose input and
output buffer pointers are identical, copy the input region to host
memory. -/
def snapshotInputs (buffers : Nat → Nat) (mem : Mem) :
    List (Nat × Nat × Nat) → List (Nat × List Nat) → List (Nat × List Nat)
  | [], copies => copies
  | (input_idx, output_idx, size) :: rest, copies =>
    if buffers input_idx = buffers output_idx then
      snapshotInputs buffers mem rest
        (assocSet copies input_idx (readBytes mem (buffers input_idx) size))
    else snapshotInputs buffers mem rest copies

/-- The byte at offset `j` read from a host vector by
`cuMemcpyHtoDAsync(..., input_copies[input_idx].data(), size, ...)`: within
the vector it is the stored byte; past its end the source reads out of
bounds, modelled by the unspecified-value oracle `junk`. -/
def hostByte (copy : List Nat) (junk : Nat → Nat) (j : Nat) : Nat :=
  if h : j < copy.length then copy.get ⟨j, h⟩ else junk j

/-- Restore step of `Autotune`: for EVERY aliasing triple (not only the
snapshotted ones), copy `size` bytes from the host map entry for
`input_idx` back to the device input address. -/
def restoreInputs (buffers : Nat → Nat) (junk : Nat → Nat)
    (copies : List (Nat × List Nat)) :
    List (Nat × Nat × Nat) → Mem → Mem
  | [], mem => mem
  | (input_idx, _, size) :: rest, mem =>
    let copy := assocGet copies input_idx
    let data := (List.range size).map (hostByte copy junk)
    restoreInputs buffers junk copies rest
      (writeBytes mem (buffers input_idx) data)

/-- Running minimum update `best = std::min(best, t)` with `best`
initialised to `+infinity` (modelled as `none`). -/
def minRunning : Option Rat → Rat → Rat
  | none, t => t
  | some b, t => min b t

/-- Phase 1 of `Autotune`: one single-iteration benchmark per config,
tracking the minimum observed time; a driver failure aborts the phase with
that error. -/
def autotunePhase1 (o : BenchOracle) :
    List Config → Option Rat → Mem → StatusOr (Option Rat) × Mem
  | [], best, mem => (.ok best, mem)
  | c :: rest, best, mem =>
    match Benchmark o c.kernel_call 1 mem with
    | .error e => (.error e, mem)
    | .ok (t, mem') => autotunePhase1 o rest (some (minRunning best t)) mem'

/-- The timed iteration count:
`max(static_cast<int>(kBenchmarkTimeMillis / best), 1)` capped at 100.
`best = none` models the unreachable `+infinity` case (`10 / inf = 0`), and
`Rat` division by zero yields `0` at the source's undefined
`static_cast<int>(inf)` point; neither case arises for positive measured
times. -/
def timedIters (best : Option Rat) : Nat :=
  match best with
  | none => 1
  | some b => (min (max (kBenchmarkTimeMillis / b).floor 1 : Int) 100).toNat

/-- The running-best comparison `t < best` of the phase-2 loop, with `best`
initialised to `+infinity`. -/
def ltRunning (t : Rat) : Option Rat → Bool
  | none => true
  | some b => decide (t < b)

/-- Phase 2 of `Autotune`: the `for (Config& config : configs_)` loop that
benchmarks the config at each position for `iters` iterations and swaps it
into slot 0 whenever its time is strictly below the running best.  The
source loop is embedded with explicit fuel (structural recursion);
`autotunePhase2` supplies fuel `arr.size`, which by
`autotunePhase2Go_ge_fuel` always suffices. -/
def autotunePhase2Go (o : BenchOracle) (iters : Nat) :
    Nat → Array Config → Nat → Option Rat → Mem →
    StatusOr Unit × Array Config × Mem
  | 0, arr, _, _, mem => (.ok (), arr, mem)
  | fuel + 1, arr, i, best, mem =>
    if h : i < arr.size then
      match Benchmark o (arr.get ⟨i, h⟩).kernel_call iters mem with
      | .error e => (.error e, arr, mem)
      | .ok (t, mem') =>
        if ltRunning t best then
          autotunePhase2Go o iters fuel
            (arr.swap ⟨i, h⟩ ⟨0, Nat.lt_of_le_of_lt (Nat.zero_le i) h⟩)
            (i + 1) (some t) mem'
        else autotunePhase2Go o iters fuel arr (i + 1) best mem'
    else (.ok (), arr, mem)

/-- Phase 2 entry point: starts at position 0 with `best = +infinity`. -/
def autotunePhase2 (o : BenchOracle) (iters : Nat) (arr : Array Config)
    (mem : Mem) : StatusOr Unit × Array Config × Mem :=
  autotunePhase2Go o iters arr.size arr 0 none mem

/-- Model of `AutotunedKernelCall::Autotune`.  Mirrors the source step by
step: snapshot identical-pointer aliased inputs, phase 1, iteration-count
computation, phase 2 with incremental swap into slot 0, discard of all
configs but slot 0, restore of EVERY aliasing triple from the host map, and
stream synchronisation.  Driver failures surface through the benchmark
oracle; the context push/pop and the memcpy/synchronize calls of the
snapshot/restore steps are modelled as succeeding.  Returns the status, the
resulting config list (as left by the source on both success and failure
paths) and the resulting device memory. -/
def AutotunedKernelCall.Autotune (o : BenchOracle) (junk : Nat → Nat)
    (buffers : Nat → Nat) (a : AutotunedKernelCall) (mem : Mem) :
    StatusOr Unit × List Config × Mem :=
  let copies := snapshotInputs buffers mem a.input_output_aliases []
  match autotunePhase1 o a.configs none mem with
  | (.error e, mem1) => (.error e, a.configs, mem1)
  | (.ok best, mem1) =>
    let iters := timedIters best
    match autotunePhase2 o iters a.configs.toArray mem1 with
    | (.error e, arr, mem2) => (.error e, arr.toList, mem2)
    | (.ok _, arr, mem2) =>
      let configs' := arr.toList.take 1
      let mem3 := restoreInputs buffers junk copies a.input_output_aliases mem2
      (.ok (), configs', mem3)

/-- Observable outcome of one `AutotunedKernelCall::Launch` call:
`result = none` means the dispatch read `configs_[0]` of an empty config
list (out of bounds — undefined behaviour in the source); `ranAutotune`
records whether this call invoked `Autotune`; `launched` is the config
dispatched by this call, if any. -/
structure LaunchStep where
  result : Option (StatusOr Unit)
  state : AutotunedKernelCall
  mem : Mem
  ranAutotune : Bool
  launched : Option Config

/-- The post-gate part of `AutotunedKernelCall::Launch`:
`JAX_RETURN_IF_ERROR(autotune_status_)` followed by the dispatch of
`configs_[0]`; on an empty config list that read is out of bounds (undefined
behaviour in the source), reported as `result = none`. -/
def AutotunedKernelCall.dispatch (o : BenchOracle) (a1 : AutotunedKernelCall)
    (mem1 : Mem) (ran : Bool) : LaunchStep :=
  match a1.autotune_status with
  | .error e => ⟨some (.error e), a1, mem1, ran, none⟩
  | .ok _ =>
    match a1.configs with
    | [] => ⟨none, a1, mem1, ran, none⟩
    | c :: _ =>
      match o.launchResult c.kernel_call with
      | .error e => ⟨some (.error e), a1, mem1, ran, some c⟩
      | .ok _ => ⟨some (.ok ()), a1, o.effect c.kernel_call mem1, ran, some c⟩

/-- Model of `AutotunedKernelCall::Launch`: the `absl::call_once` gate runs
`Autotune` on the first call when more than one config is present (and marks
the gate fired even when `Autotune` fails, or when it is skipped); the
stored `autotune_status_` is then checked by the post-gate `dispatch`. -/
def AutotunedKernelCall.Launch (o : BenchOracle) (junk : Nat → Nat)
    (buffers : Nat → Nat) (a : AutotunedKernelCall) (mem : Mem) : LaunchStep :=
  if a.autotune_once then AutotunedKernelCall.dispatch o a mem false
  else if 1 < a.configs.length then
    match AutotunedKernelCall.Autotune o junk buffers a mem with
    | (st, configs', mem') =>
      AutotunedKernelCall.dispatch o
        ⟨a.name, configs', a.input_output_aliases, true, st⟩ mem' true
  else
    AutotunedKernelCall.dispatch o
      ⟨a.name, a.configs, a.input_output_aliases, true, a.autotune_status⟩
      mem false

/-- The sequence of `Launch` outcomes over `n` repeated calls. -/
def launchTrace (o : BenchOracle) (junk buffers : Nat → Nat) :
    Nat → AutotunedKernelCall → Mem → List LaunchStep
  | 0, _, _ => []
  | n + 1, a, mem =>
    let st := AutotunedKernelCall.Launch o junk buffers a mem
    st :: launchTrace o junk buffers n st.state st.mem

/-- Modelled from the spec: the "single-pass minimum-by-time selection with
earliest-index tie-break" that C5 compares the phase-2 loop against — the
fold keeps the current best and replaces it only on a strictly smaller
time. -/
def selectMinByTime (time : Config → Rat) : List Config → Option Config
  | [] => none
  | c :: rest =>
    some (rest.foldl (fun best c' => if time c' < time best then c' else best) c)

/-- The phase-1 running minimum as a pure fold (what `autotunePhase1`
computes when no benchmark fails). -/
def phase1Best (f : KernelCall → Nat → Rat) :
    List Config → Option Rat → Option Rat
  | [], best => best
  | c :: rest, best =>
    phase1Best f rest (some (minRunning best (f c.kernel_call 1)))

/-- C2 (code bug evaluated at the failing input): an `AutotunedKernelCall`
with two configs and the single aliasing triple `(0, 1, 8)` is autotuned
with buffer 0 at device address 100 and buffer 1 at the DISTINCT address 200
(so no snapshot is taken), with kernels that do not touch memory at all and
drivers that never fail.  The pass succeeds, yet the input byte at address
100 — originally 7 — is 0 afterwards: the restore loop reads 8 bytes from
the default-constructed empty host vector `input_copies[0]` (an
out-of-bounds read, modelled by the `junk` oracle, here constantly 0) and
writes them over the input region instead of leaving it intact. -/
theorem autotune_alias_restore_code_bug :
    (AutotunedKernelCall.Autotune
        ⟨fun _ _ => .ok 1, fun _ m => m, fun _ => .ok ()⟩ (fun _ => 0)
        (fun j => if j = 0 then 100 else 200)
        ⟨"n", [⟨⟨Kernel.make "a" 1 0 "p" "t" 80, (1, 1, 1), []⟩, "c0"⟩,
          ⟨⟨Kernel.make "b" 1 0 "p" "t" 80, (1, 1, 1), []⟩, "c1"⟩],
          [(0, 1, 8)], false, .ok ()⟩
        (fun a => if 100 ≤ a ∧ a < 108 then 7 else 0)).1 = .ok () ∧
    (AutotunedKernelCall.Autotune
        ⟨fun _ _ => .ok 1, fun _ m => m, fun _ => .ok ()⟩ (fun _ => 0)
        (fun j => if j = 0 then 100 else 200)
        ⟨"n", [⟨⟨Kernel.make "a" 1 0 "p" "t" 80, (1, 1, 1), []⟩, "c0"⟩,
          ⟨⟨Kernel.make "b" 1 0 "p" "t" 80, (1, 1, 1), []⟩, "c1"⟩],
          [(0, 1, 8)], false, .ok ()⟩
        (fun a => if 100 ≤ a ∧ a < 108 then 7 else 0)).2.2 100 = 0 ∧
    (fun a => if 100 ≤ a ∧ a < 108 then (7 : Nat) else 0) 100 = 7 ∧
    (0 : Nat) ≠ 7 := by
  refine ⟨rfl, rfl, rfl, by decide⟩

theorem autotunePhase2Go_size (o : BenchOracle) (iters : Nat) :
    ∀ (fuel : Nat) (arr : Array Config) (i : Nat) (best : Option Rat)
      (mem : Mem),
      ((autotunePhase2Go o iters fuel arr i best mem).2.1).size = arr.size := by
  intro fuel
  induction fuel with
  | zero => intro arr i best mem; rfl
  | succ fuel ih =>
    intro arr i best mem
    rw [autotunePhase2Go]
    by_cases h : i < arr.size
    · rw [dif_pos h]
      rcases hb : Benchmark o (arr.get ⟨i, h⟩).kernel_call iters mem with e | ⟨t, mem'⟩
      · rfl
      · simp only []
        by_cases hlt : ltRunning t best = true
        · rw [if_pos hlt, ih, Array.size_swap]
        · rw [if_neg hlt, ih]
    · rw [dif_neg h]

theorem dispatch_state_eq (o : BenchOracle) (a1 : AutotunedKernelCall)
    (mem1 : Mem) (ran : Bool) :
    (AutotunedKernelCall.dispatch o a1 mem1 ran).state = a1 ∧
    (AutotunedKernelCall.dispatch o a1 mem1 ran).ranAutotune = ran := by
  rcases hst : a1.autotune_status with e | u
  · simp [AutotunedKernelCall.dispatch, hst]
  · rcases hc : a1.configs with _ | ⟨c, rest⟩
    · simp [AutotunedKernelCall.dispatch, hst, hc]
    · rcases hl : o.launchResult c.kernel_call with e | u' <;>
        simp [AutotunedKernelCall.dispatch, hst, hc, hl]

theorem dispatch_error_eq (o : BenchOracle) (a1 : AutotunedKernelCall)
    (mem1 : Mem) (ran : Bool) (e : Status)
    (h : a1.autotune_status = .error e) :
    AutotunedKernelCall.dispatch o a1 mem1 ran =
      ⟨some (.error e), a1, mem1, ran, none⟩ := by
  unfold AutotunedKernelCall.dispatch
  rw [h]

theorem launch_gate_fired (o : BenchOracle) (junk buffers : Nat → Nat)
    (s : AutotunedKernelCall) (m : Mem) (h : s.autotune_once = true) :
    AutotunedKernelCall.Launch o junk buffers s m =
      AutotunedKernelCall.dispatch o s m false := by
  unfold AutotunedKernelCall.Launch
  rw [h]
  rfl

theorem launch_first_with_tuning (o : BenchOracle) (junk buffers : Nat → Nat)
    (name : String) (cfgs : List Config) (aliases : List (Nat × Nat × Nat))
    (mem : Mem) (h2 : 1 < cfgs.length) :
    AutotunedKernelCall.Launch o junk buffers
        ⟨name, cfgs, aliases, false, .ok ()⟩ mem =
      AutotunedKernelCall.dispatch o
        ⟨name,
          (AutotunedKernelCall.Autotune o junk buffers
            ⟨name, cfgs, aliases, false, .ok ()⟩ mem).2.1,
          aliases, true,
          (AutotunedKernelCall.Autotune o junk buffers
            ⟨name, cfgs, aliases, false, .ok ()⟩ mem).1⟩
        (AutotunedKernelCall.Autotune o junk buffers
          ⟨name, cfgs, aliases, false, .ok ()⟩ mem).2.2
        true := by
  unfold AutotunedKernelCall.Launch
  simp only [if_neg (Bool.false_ne_true), h2, if_pos]

theorem launchTrace_after_gate (o : BenchOracle) (junk buffers : Nat → Nat) :
    ∀ (n : Nat) (s : AutotunedKernelCall) (m : Mem), s.autotune_once = true →
      (launchTrace o junk buffers n s m).countP (fun st => st.ranAutotune) = 0 := by
  intro n
  induction n with
  | zero => intro s m _; rfl
  | succ n ih =>
    intro s m h
    obtain ⟨hstate, hran⟩ := dispatch_state_eq o s m false
    have hL : AutotunedKernelCall.Launch o junk buffers s m =
        AutotunedKernelCall.dispatch o s m false :=
      launch_gate_fired o junk buffers s m h
    simp only [launchTrace, hL, List.countP_cons, hran, hstate]
    simpa using ih s ((AutotunedKernelCall.dispatch o s m false).mem) h

theorem autotune_preserves_nonempty (o : BenchOracle) (junk buffers : Nat → Nat)
    (a : AutotunedKernelCall) (mem : Mem) (hne : a.configs ≠ []) :
    (AutotunedKernelCall.Autotune o junk buffers a mem).2.1 ≠ [] := by
  rcases h1 : autotunePhase1 o a.configs none mem with ⟨st1, mem1⟩
  rcases st1 with e | best
  · have hA : (AutotunedKernelCall.Autotune o junk buffers a mem).2.1 =
        a.configs := by
      unfold AutotunedKernelCall.Autotune
      simp only [h1]
    rw [hA]
    exact hne
  · rcases h2 : autotunePhase2 o (timedIters best) a.configs.toArray mem1 with
      ⟨st2, arr, mem2⟩
    have hsize : arr.size = a.configs.length := by
      have hs := autotunePhase2Go_size o (timedIters best)
        a.configs.toArray.size a.configs.toArray 0 none mem1
      rw [show autotunePhase2Go o (timedIters best) a.configs.toArray.size
          a.configs.toArray 0 none mem1 = (st2, arr, mem2) from h2] at hs
      simpa using hs
    have hpos : 0 < arr.toList.length := by
      rw [Array.length_toList, hsize]
      exact List.length_pos.mpr hne
    rcases st2 with e | u
    · have hA : (AutotunedKernelCall.Autotune o junk buffers a mem).2.1 =
          arr.toList := by
        unfold AutotunedKernelCall.Autotune
        simp only [h1]
        simp only [h2]
      rw [hA]
      intro hcon
      rw [hcon] at hpos
      simp at hpos
    · have hA : (AutotunedKernelCall.Autotune o junk buffers a mem).2.1 =
          arr.toList.take 1 := by
        unfold AutotunedKernelCall.Autotune
        simp only [h1]
        simp only [h2]
      rw [hA]
      intro hcon
      have hlen := congrArg List.length hcon
      simp only [List.length_take, List.length_nil] at hlen
      omega

/-- C10: for every `AutotunedKernelCall` whose config list is non-empty, the
post-tuning dispatch of `Launch` reads config index 0 in bounds
(`result ≠ none`); and the non-emptiness precondition is required: on an
instance with zero configs the gate skips tuning (it tunes only when more
than one config is present) and the dispatch then indexes the first element
of the empty config list (`result = none`, the model's rendering of the
source's out-of-bounds `configs_[0]`). -/
theorem autotuned_launch_index_safe (o : BenchOracle) (junk buffers : Nat → Nat)
    (name : String) (cfgs : List Config) (aliases : List (Nat × Nat × Nat))
    (mem : Mem) (hne : cfgs ≠ []) :
    (AutotunedKernelCall.Launch o junk buffers
      ⟨name, cfgs, aliases, false, .ok ()⟩ mem).result ≠ none ∧
    ∀ (name' : String) (aliases' : List (Nat × Nat × Nat)) (m : Mem),
      (AutotunedKernelCall.Launch o junk buffers
        ⟨name', [], aliases', false, .ok ()⟩ m).result = none := by
  constructor
  · by_cases h2 : 1 < cfgs.length
    · rw [launch_first_with_tuning o junk buffers name cfgs aliases mem h2]
      rcases hst : (AutotunedKernelCall.Autotune o junk buffers
        ⟨name, cfgs, aliases, false, .ok ()⟩ mem).1 with e | u
      · simp [AutotunedKernelCall.dispatch]
      · have hne' := autotune_preserves_nonempty o junk buffers
          ⟨name, cfgs, aliases, false, .ok ()⟩ mem hne
        rcases hc : (AutotunedKernelCall.Autotune o junk buffers
          ⟨name, cfgs, aliases, false, .ok ()⟩ mem).2.1 with _ | ⟨c, rest⟩
        · exact absurd hc hne'
        · rcases hl : o.launchResult c.kernel_call with e | u' <;>
            simp [AutotunedKernelCall.dispatch, hst, hc, hl]
    · have h1 : cfgs.length = 1 := by
        have := List.length_pos.mpr hne
        omega
      rcases cfgs with _ | ⟨c, rest⟩
      · simp at hne
      · have hrest : rest = [] := by
          simpa using h1
        subst hrest
        rcases hl : o.launchResult c.kernel_call with e | u' <;>
          simp [AutotunedKernelCall.Launch, AutotunedKernelCall.dispatch, hl]
  · intro name' aliases' m
    rfl

/-- Witness for `autotuned_launch_index_safe` at a concrete one-config
call. -/
theorem autotuned_launch_index_safe_witness :
    (AutotunedKernelCall.Launch
      ⟨fun _ _ => .ok 1, fun _ m => m, fun _ => .ok ()⟩ (fun _ => 0)
      (fun _ => 0)
      ⟨"w", [⟨⟨Kernel.make "a" 1 0 "p" "t" 80, (1, 1, 1), []⟩, "c0"⟩],
        [], false, .ok ()⟩ (fun _ => 0)).result ≠ none ∧
    ∀ (name' : String) (aliases' : List (Nat × Nat × Nat)) (m : Mem),
      (AutotunedKernelCall.Launch
        ⟨fun _ _ => .ok 1, fun _ m' => m', fun _ => .ok ()⟩ (fun _ => 0)
        (fun _ => 0)
        ⟨name', [], aliases', false, .ok ()⟩ m).result = none :=
  autotuned_launch_index_safe
    ⟨fun _ _ => .ok 1, fun _ m => m, fun _ => .ok ()⟩ (fun _ => 0)
    (fun _ => 0) "w" [⟨⟨Kernel.make "a" 1 0 "p" "t" 80, (1, 1, 1), []⟩, "c0"⟩]
    [] (fun _ => 0) (by simp)

/-- C6: if the tuning step of an `AutotunedKernelCall` (two or more configs,
fresh gate) aborts with a driver error `e`, then the failing `Launch` call
returns exactly `e`, the one-shot gate is still marked fired and the failure
is stored; and every call on a gate-fired instance with a stored failure
returns that same stored error without re-running `Autotune`, without
launching any config, and without changing the instance. -/
theorem autotuned_launch_failure_spec (o : BenchOracle)
    (junk buffers : Nat → Nat) (name : String) (cfgs : List Config)
    (aliases : List (Nat × Nat × Nat)) (mem : Mem) (e : Status)
    (h2 : 1 < cfgs.length)
    (hfail : (AutotunedKernelCall.Autotune o junk buffers
      ⟨name, cfgs, aliases, false, .ok ()⟩ mem).1 = .error e) :
    ((AutotunedKernelCall.Launch o junk buffers
        ⟨name, cfgs, aliases, false, .ok ()⟩ mem).result = some (.error e) ∧
      (AutotunedKernelCall.Launch o junk buffers
        ⟨name, cfgs, aliases, false, .ok ()⟩ mem).ranAutotune = true ∧
      (AutotunedKernelCall.Launch o junk buffers
        ⟨name, cfgs, aliases, false, .ok ()⟩ mem).launched = none ∧
      (AutotunedKernelCall.Launch o junk buffers
        ⟨name, cfgs, aliases, false, .ok ()⟩ mem).state.autotune_once = true ∧
      (AutotunedKernelCall.Launch o junk buffers
        ⟨name, cfgs, aliases, false, .ok ()⟩ mem).state.autotune_status =
        .error e) ∧
    (∀ (s : AutotunedKernelCall) (m : Mem), s.autotune_once = true →
      s.autotune_status = .error e →
      (AutotunedKernelCall.Launch o junk buffers s m).result =
        some (.error e) ∧
      (AutotunedKernelCall.Launch o junk buffers s m).ranAutotune = false ∧
      (AutotunedKernelCall.Launch o junk buffers s m).launched = none ∧
      (AutotunedKernelCall.Launch o junk buffers s m).state = s) := by
  constructor
  · rw [launch_first_with_tuning o junk buffers name cfgs aliases mem h2, hfail]
    simp [AutotunedKernelCall.dispatch]
  · intro s m hone hst
    rw [launch_gate_fired o junk buffers s m hone,
      dispatch_error_eq _ _ _ _ e hst]
    exact ⟨rfl, rfl, rfl, rfl⟩

/-- Witness for `autotuned_launch_failure_spec`: a concrete driver oracle
whose very first benchmark event call fails with a `DriverError`. -/
theorem autotuned_launch_failure_spec_witness :
    ((AutotunedKernelCall.Launch
        ⟨fun _ _ => .error (.driver "event failure"), fun _ m => m,
          fun _ => .ok ()⟩ (fun _ => 0) (fun _ => 0)
        ⟨"w", [⟨⟨Kernel.make "a" 1 0 "p" "t" 80, (1, 1, 1), []⟩, "c0"⟩,
          ⟨⟨Kernel.make "b" 1 0 "p" "t" 80, (1, 1, 1), []⟩, "c1"⟩],
          [], false, .ok ()⟩ (fun _ => 0)).result =
        some (.error (.driver "event failure")) ∧
      (AutotunedKernelCall.Launch
        ⟨fun _ _ => .error (.driver "event failure"), fun _ m => m,
          fun _ => .ok ()⟩ (fun _ => 0) (fun _ => 0)
        ⟨"w", [⟨⟨Kernel.make "a" 1 0 "p" "t" 80, (1, 1, 1), []⟩, "c0"⟩,
          ⟨⟨Kernel.make "b" 1 0 "p" "t" 80, (1, 1, 1), []⟩, "c1"⟩],
          [], false, .ok ()⟩ (fun _ => 0)).ranAutotune = true ∧
      (AutotunedKernelCall.Launch
        ⟨fun _ _ => .error (.driver "event failure"), fun _ m => m,
          fun _ => .ok ()⟩ (fun _ => 0) (fun _ => 0)
        ⟨"w", [⟨⟨Kernel.make "a" 1 0 "p" "t" 80, (1, 1, 1), []⟩, "c0"⟩,
          ⟨⟨Kernel.make "b" 1 0 "p" "t" 80, (1, 1, 1), []⟩, "c1"⟩],
          [], false, .ok ()⟩ (fun _ => 0)).launched = none ∧
      (AutotunedKernelCall.Launch
        ⟨fun _ _ => .error (.driver "event failure"), fun _ m => m,
          fun _ => .ok ()⟩ (fun _ => 0) (fun _ => 0)
        ⟨"w", [⟨⟨Kernel.make "a" 1 0 "p" "t" 80, (1, 1, 1), []⟩, "c0"⟩,
          ⟨⟨Kernel.make "b" 1 0 "p" "t" 80, (1, 1, 1), []⟩, "c1"⟩],
          [], false, .ok ()⟩ (fun _ => 0)).state.autotune_once = true ∧
      (AutotunedKernelCall.Launch
        ⟨fun _ _ => .error (.driver "event failure"), fun _ m => m,
          fun _ => .ok ()⟩ (fun _ => 0) (fun _ => 0)
        ⟨"w", [⟨⟨Kernel.make "a" 1 0 "p" "t" 80, (1, 1, 1), []⟩, "c0"⟩,
          ⟨⟨Kernel.make "b" 1 0 "p" "t" 80, (1, 1, 1), []⟩, "c1"⟩],
          [], false, .ok ()⟩ (fun _ => 0)).state.autotune_status =
        .error (.driver "event failure")) ∧
    (∀ (s : AutotunedKernelCall) (m : Mem), s.autotune_once = true →
      s.autotune_status = .error (.driver "event failure") →
      (AutotunedKernelCall.Launch
        ⟨fun _ _ => .error (.driver "event failure"), fun _ m' => m',
          fun _ => .ok ()⟩ (fun _ => 0) (fun _ => 0) s m).result =
        some (.error (.driver "event failure")) ∧
      (AutotunedKernelCall.Launch
        ⟨fun _ _ => .error (.driver "event failure"), fun _ m' => m',
          fun _ => .ok ()⟩ (fun _ => 0) (fun _ => 0) s m).ranAutotune = false ∧
      (AutotunedKernelCall.Launch
        ⟨fun _ _ => .error (.driver "event failure"), fun _ m' => m',
          fun _ => .ok ()⟩ (fun _ => 0) (fun _ => 0) s m).launched = none ∧
      (AutotunedKernelCall.Launch
        ⟨fun _ _ => .error (.driver "event failure"), fun _ m' => m',
          fun _ => .ok ()⟩ (fun _ => 0) (fun _ => 0) s m).state = s) :=
  autotuned_launch_failure_spec
    ⟨fun _ _ => .error (.driver "event failure"), fun _ m => m, fun _ => .ok ()⟩
    (fun _ => 0) (fun _ => 0) "w"
    [⟨⟨Kernel.make "a" 1 0 "p" "t" 80, (1, 1, 1), []⟩, "c0"⟩,
      ⟨⟨Kernel.make "b" 1 0 "p" "t" 80, (1, 1, 1), []⟩, "c1"⟩]
    [] (fun _ => 0) (.driver "event failure") (by decide) rfl

theorem Benchmark_ok (o : BenchOracle) (f : KernelCall → Nat → Rat)
    (hok : ∀ kc n, o.time kc n = .ok (f kc n)) (kc : KernelCall) (n : Nat)
    (mem : Mem) :
    Benchmark o kc n mem = .ok (f kc n, (o.effect kc)^[n + 1] mem) := by
  unfold Benchmark
  rw [hok]

theorem array_swap_self (a : Array Config) (x : Fin a.size) : a.swap x x = a := by
  apply Array.ext
  · rw [Array.size_swap]
  · intro k hk hk'
    rw [Array.getElem_swap]
    by_cases hkx : k = x.val
    · subst hkx
      rw [if_pos rfl]
      rfl
    · rw [if_neg hkx, if_neg hkx]

theorem array_swap_getElem?_ne (a : Array Config) (x y : Fin a.size) (j : Nat)
    (hx : j ≠ x.val) (hy : j ≠ y.val) : (a.swap x y)[j]? = a[j]? := by
  by_cases hj : j < a.size
  · rw [Array.getElem?_eq_getElem hj,
      Array.getElem?_eq_getElem (by rw [Array.size_swap]; exact hj),
      Array.getElem_swap, if_neg hx, if_neg hy]
  · have h1 : (a.swap x y)[j]? = none := by
      rw [Array.getElem?_eq_getElem?_toList]
      apply List.getElem?_eq_none
      rw [Array.length_toList, Array.size_swap]
      omega
    have h2 : a[j]? = none := by
      rw [Array.getElem?_eq_getElem?_toList]
      apply List.getElem?_eq_none
      rw [Array.length_toList]
      omega
    rw [h1, h2]

theorem array_head?_toList (arr : Array Config) :
    arr.toList.head? = arr[0]? := by
  rw [List.head?_eq_getElem?, Array.getElem?_eq_getElem?_toList]

theorem head?_some_take_one (l : List Config) (w : Config)
    (h : l.head? = some w) : l.take 1 = [w] := by
  rcases l with _ | ⟨x, xs⟩
  · simp at h
  · simp only [List.head?_cons, Option.some.injEq] at h
    rw [h]
    rfl

theorem selectMinByTime_take_succ (time : Config → Rat) (l : List Config)
    (i : Nat) (hi : i < l.length) (cur : Config)
    (h : selectMinByTime time (l.take i) = some cur) :
    selectMinByTime time (l.take (i + 1)) =
      some (if time (l.get ⟨i, hi⟩) < time cur then l.get ⟨i, hi⟩ else cur) := by
  rcases ht : l.take i with _ | ⟨c, rest⟩
  · rw [ht] at h
    simp [selectMinByTime] at h
  · rw [ht] at h
    have hcur : rest.foldl
        (fun best c' => if time c' < time best then c' else best) c = cur := by
      simpa [selectMinByTime] using h
    have htake : l.take (i + 1) = l.take i ++ [l.get ⟨i, hi⟩] := by
      rw [List.take_succ]
      have hg : l[i]? = some (l.get ⟨i, hi⟩) := by
        rw [List.getElem?_eq_getElem hi]
        rfl
      rw [hg]
      rfl
    rw [htake, ht]
    simp only [selectMinByTime, List.cons_append, List.foldl_append,
      List.foldl_cons, List.foldl_nil, hcur]

theorem foldlBest_le (time : Config → Rat) :
    ∀ (xs : List Config) (acc : Config),
      time (xs.foldl (fun best c' => if time c' < time best then c' else best)
          acc) ≤ time acc ∧
      ∀ x ∈ xs,
        time (xs.foldl (fun best c' => if time c' < time best then c' else best)
          acc) ≤ time x := by
  intro xs
  induction xs with
  | nil => intro acc; exact ⟨le_refl _, by simp⟩
  | cons x xs ih =>
    intro acc
    simp only [List.foldl_cons]
    by_cases hx : time x < time acc
    · rw [if_pos hx]
      obtain ⟨h1, h2⟩ := ih x
      refine ⟨h1.trans hx.le, ?_⟩
      intro y hy
      rcases List.mem_cons.mp hy with rfl | hy
      · exact h1
      · exact h2 y hy
    · rw [if_neg hx]
      obtain ⟨h1, h2⟩ := ih acc
      refine ⟨h1, ?_⟩
      intro y hy
      rcases List.mem_cons.mp hy with rfl | hy
      · exact h1.trans (not_lt.mp hx)
      · exact h2 y hy

theorem foldlBest_earliest (time : Config → Rat) :
    ∀ (xs : List Config) (acc r : Config),
      xs.foldl (fun best c' => if time c' < time best then c' else best) acc =
        r →
      r = acc ∨
      ∃ i, ∃ hi : i < xs.length, xs.get ⟨i, hi⟩ = r ∧ time r < time acc ∧
        ∀ j, ∀ hj : j < i, time r < time (xs.get ⟨j, Nat.lt_trans hj hi⟩) := by
  intro xs
  induction xs with
  | nil => intro acc r h; left; exact h.symm
  | cons x xs ih =>
    intro acc r h
    simp only [List.foldl_cons] at h
    by_cases hx : time x < time acc
    · rw [if_pos hx] at h
      rcases ih x r h with rfl | ⟨i, hi, hget, hlt, hb⟩
      · right
        exact ⟨0, by simp, rfl, hx, fun j hj => absurd hj (Nat.not_lt_zero j)⟩
      · right
        refine ⟨i + 1, Nat.succ_lt_succ hi, ?_, hlt.trans hx, ?_⟩
        · rw [List.get_cons_succ]
          exact hget
        · intro j hj
          rcases j with _ | k
          · simpa using hlt
          · rw [List.get_cons_succ]
            exact hb k (Nat.lt_of_succ_lt_succ hj)
    · rw [if_neg hx] at h
      rcases ih acc r h with hr | ⟨i, hi, hget, hlt, hb⟩
      · left; exact hr
      · right
        refine ⟨i + 1, Nat.succ_lt_succ hi, ?_, hlt, ?_⟩
        · rw [List.get_cons_succ]
          exact hget
        · intro j hj
          rcases j with _ | k
          · simpa using hlt.trans_le (not_lt.mp hx)
          · rw [List.get_cons_succ]
            exact hb k (Nat.lt_of_succ_lt_succ hj)

theorem selectMinByTime_spec (time : Config → Rat) (l : List Config)
    (w : Config) (h : selectMinByTime time l = some w) :
    w ∈ l ∧ (∀ c ∈ l, time w ≤ time c) ∧
    ∃ i, ∃ hi : i < l.length, l.get ⟨i, hi⟩ = w ∧
      ∀ j, ∀ hj : j < i, time w < time (l.get ⟨j, Nat.lt_trans hj hi⟩) := by
  rcases l with _ | ⟨c, rest⟩
  · simp [selectMinByTime] at h
  · have hw : rest.foldl
        (fun best c' => if time c' < time best then c' else best) c = w := by
      simpa [selectMinByTime] using h
    obtain ⟨hle, hall⟩ := foldlBest_le time rest c
    rw [hw] at hle hall
    have hmin : ∀ x ∈ c :: rest, time w ≤ time x := by
      intro x hx
      rcases List.mem_cons.mp hx with rfl | hx
      · exact hle
      · exact hall x hx
    rcases foldlBest_earliest time rest c w hw with hwc | ⟨i, hi, hget, hlt, hb⟩
    · refine ⟨by rw [hwc]; exact List.mem_cons_self c rest, hmin, 0, by simp,
        ?_, fun j hj => absurd hj (Nat.not_lt_zero j)⟩
      simpa using hwc.symm
    · refine ⟨?_, hmin, i + 1, Nat.succ_lt_succ hi, ?_, ?_⟩
      · exact List.mem_cons_of_mem c (hget ▸ List.get_mem rest i hi)
      · rw [List.get_cons_succ]
        exact hget
      · intro j hj
        rcases j with _ | k
        · simpa using hlt
        · rw [List.get_cons_succ]
          exact hb k (Nat.lt_of_succ_lt_succ hj)

theorem phase2_invariant_terminal (time2 : Config → Rat)
    (orig arr : Array Config) (i : Nat) (best : Option Rat)
    (hsize : arr.size = orig.size) (hge : orig.size ≤ i)
    (hinv : (i = 0 ∧ best = none ∧ arr = orig) ∨
      (0 < i ∧ ∃ w, arr[0]? = some w ∧ best = some (time2 w) ∧
        selectMinByTime time2 (orig.toList.take i) = some w)) :
    arr.toList.head? = selectMinByTime time2 orig.toList := by
  rcases hinv with ⟨hi0, _, rfl⟩ | ⟨_, w, h0, _, hsel⟩
  · subst hi0
    have hz : arr.size = 0 := Nat.le_zero.mp hge
    have hnil : arr.toList = [] := by
      have : arr.toList.length = 0 := by rw [Array.length_toList]; exact hz
      exact List.eq_nil_of_length_eq_zero this
    rw [hnil]
    rfl
  · have htake : orig.toList.take i = orig.toList :=
      List.take_of_length_le (by rw [Array.length_toList]; exact hge)
    rw [htake] at hsel
    rw [array_head?_toList, h0, hsel]

theorem autotunePhase2Go_step (o : BenchOracle) (iters fuel : Nat)
    (arr : Array Config) (i : Nat) (best : Option Rat) (mem : Mem)
    (h : i < arr.size) (t : Rat) (mem' : Mem)
    (hb : Benchmark o (arr.get ⟨i, h⟩).kernel_call iters mem = .ok (t, mem')) :
    autotunePhase2Go o iters (fuel + 1) arr i best mem =
      if ltRunning t best then
        autotunePhase2Go o iters fuel
          (arr.swap ⟨i, h⟩ ⟨0, Nat.lt_of_le_of_lt (Nat.zero_le i) h⟩)
          (i + 1) (some t) mem'
      else autotunePhase2Go o iters fuel arr (i + 1) best mem' := by
  rw [autotunePhase2Go, dif_pos h, hb]

theorem autotunePhase2Go_sel (o : BenchOracle) (f : KernelCall → Nat → Rat)
    (hok : ∀ kc n, o.time kc n = .ok (f kc n)) (iters : Nat)
    (orig : Array Config) :
    ∀ (fuel i : Nat) (arr : Array Config) (best : Option Rat) (mem : Mem),
      arr.size = orig.size →
      orig.size ≤ fuel + i →
      (∀ j, i ≤ j → arr[j]? = orig[j]?) →
      ((i = 0 ∧ best = none ∧ arr = orig) ∨
        (0 < i ∧ ∃ w, arr[0]? = some w ∧
          best = some (f w.kernel_call iters) ∧
          selectMinByTime (fun c => f c.kernel_call iters)
            (orig.toList.take i) = some w)) →
      (autotunePhase2Go o iters fuel arr i best mem).1 = .ok () ∧
      (autotunePhase2Go o iters fuel arr i best mem).2.1.toList.head? =
        selectMinByTime (fun c => f c.kernel_call iters) orig.toList := by
  intro fuel
  induction fuel with
  | zero =>
    intro i arr best mem hsize hfuel hagree hinv
    exact ⟨rfl, phase2_invariant_terminal _ orig arr i best hsize
      (by omega) hinv⟩
  | succ fuel ih =>
    intro i arr best mem hsize hfuel hagree hinv
    by_cases h : i < arr.size
    · have hio : i < orig.size := by omega
      have harr_i : arr.get ⟨i, h⟩ = orig.get ⟨i, hio⟩ := by
        have := hagree i (le_refl i)
        rw [Array.getElem?_eq_getElem h, Array.getElem?_eq_getElem hio] at this
        simpa using this
      rw [autotunePhase2Go_step o iters fuel arr i best mem h _ _
        (Benchmark_ok o f hok _ _ _)]
      have hgl : orig.toList.get ⟨i, by rw [Array.length_toList]; exact hio⟩ =
          orig.get ⟨i, hio⟩ := rfl
      rcases hinv with ⟨hi0, hbnone, rfl⟩ | ⟨hipos, w, h0, hbw, hsel⟩
      · subst hi0
        subst hbnone
        have hlt : ltRunning (f (arr.get ⟨0, h⟩).kernel_call iters) none =
            true := rfl
        rw [if_pos hlt, array_swap_self]
        apply ih 1 arr _ _ hsize (by omega) (fun j _ => rfl)
        right
        refine ⟨Nat.one_pos, arr.get ⟨0, h⟩, Array.getElem?_eq_getElem h, rfl, ?_⟩
        have htake1 : arr.toList.take 1 = [arr.get ⟨0, h⟩] := by
          apply head?_some_take_one
          rw [array_head?_toList]
          exact Array.getElem?_eq_getElem h
        rw [htake1]
        rfl
      · rw [hbw]
        have hseln := selectMinByTime_take_succ
          (fun c => f c.kernel_call iters) orig.toList i
          (by rw [Array.length_toList]; exact hio) w hsel
        rw [hgl] at hseln
        by_cases hcmp : f (orig.get ⟨i, hio⟩).kernel_call iters <
            f w.kernel_call iters
        · have hbool : ltRunning (f (arr.get ⟨i, h⟩).kernel_call iters)
              (some (f w.kernel_call iters)) = true := by
            rw [harr_i]
            simpa [ltRunning] using hcmp
          rw [hbool]
          simp only [if_true]
          apply ih (i + 1)
            (arr.swap ⟨i, h⟩ ⟨0, Nat.lt_of_le_of_lt (Nat.zero_le i) h⟩) _ _
            (by rw [Array.size_swap]; exact hsize) (by omega) ?_ ?_
          · intro j hj
            rw [array_swap_getElem?_ne arr _ _ j (by show j ≠ i; omega)
              (by show j ≠ 0; omega)]
            exact hagree j (by omega)
          · right
            refine ⟨by omega, orig.get ⟨i, hio⟩, ?_, by rw [harr_i], ?_⟩
            · have hsw := Array.getElem_swap_right arr
                (i := ⟨i, h⟩) (j := ⟨0, Nat.lt_of_le_of_lt (Nat.zero_le i) h⟩)
              rw [Array.getElem?_eq_getElem
                (by rw [Array.size_swap]; exact Nat.lt_of_le_of_lt (Nat.zero_le i) h)]
              rw [← harr_i]
              exact congrArg some hsw
            · rw [hseln, if_pos hcmp]
        · have hbool : ltRunning (f (arr.get ⟨i, h⟩).kernel_call iters)
              (some (f w.kernel_call iters)) = false := by
            rw [harr_i]
            simpa [ltRunning] using hcmp
          rw [hbool]
          simp only [Bool.false_eq_true, if_false]
          apply ih (i + 1) arr _ _ hsize (by omega) ?_ ?_
          · intro j hj
            exact hagree j (by omega)
          · right
            refine ⟨by omega, w, h0, rfl, ?_⟩
            rw [hseln, if_neg hcmp]
    · rw [autotunePhase2Go]
      rw [dif_neg h]
      exact ⟨rfl, phase2_invariant_terminal _ orig arr i best hsize
        (by omega) hinv⟩

theorem autotunePhase2_sel (o : BenchOracle) (f : KernelCall → Nat → Rat)
    (hok : ∀ kc n, o.time kc n = .ok (f kc n)) (iters : Nat)
    (cfgs : List Config) (mem : Mem) :
    (autotunePhase2 o iters cfgs.toArray mem).1 = .ok () ∧
    (autotunePhase2 o iters cfgs.toArray mem).2.1.toList.head? =
      selectMinByTime (fun c => f c.kernel_call iters) cfgs := by
  have h := autotunePhase2Go_sel o f hok iters cfgs.toArray
    cfgs.toArray.size 0 cfgs.toArray none mem rfl (by omega)
    (fun j _ => rfl) (Or.inl ⟨rfl, rfl, rfl⟩)
  rw [autotunePhase2]
  simpa using h

theorem selectMinByTime_isSome (time : Config → Rat) (cfgs : List Config)
    (h : cfgs ≠ []) : ∃ w, selectMinByTime time cfgs = some w := by
  rcases cfgs with _ | ⟨c, rest⟩
  · exact absurd rfl h
  · exact ⟨_, rfl⟩

/-- C5: over any total assignment of phase-2 measured times, the phase-2
loop (which incrementally swaps a config into slot 0 whenever its time is
strictly below the running best) leaves in slot 0 exactly the config that
the single-pass minimum-by-time selection with earliest-index tie-break
(`selectMinByTime`) selects; and that selected config is a member of the
list, has minimal measured time, and occurs at an index all of whose
predecessors have strictly greater time (earliest-index tie-break). -/
theorem phase2_swap_refines_min (o : BenchOracle) (f : KernelCall → Nat → Rat)
    (hok : ∀ kc n, o.time kc n = .ok (f kc n)) (iters : Nat)
    (cfgs : List Config) (mem : Mem) :
    ((autotunePhase2 o iters cfgs.toArray mem).2.1.toList.head? =
      selectMinByTime (fun c => f c.kernel_call iters) cfgs) ∧
    ∀ w, selectMinByTime (fun c => f c.kernel_call iters) cfgs = some w →
      w ∈ cfgs ∧
      (∀ c ∈ cfgs, f w.kernel_call iters ≤ f c.kernel_call iters) ∧
      ∃ i, ∃ hi : i < cfgs.length, cfgs.get ⟨i, hi⟩ = w ∧
        ∀ j, ∀ hj : j < i,
          f w.kernel_call iters <
            f (cfgs.get ⟨j, Nat.lt_trans hj hi⟩).kernel_call iters := by
  refine ⟨(autotunePhase2_sel o f hok iters cfgs mem).2, ?_⟩
  intro w hw
  exact selectMinByTime_spec _ cfgs w hw

/-- Witness for `phase2_swap_refines_min` at a concrete two-config list and
a concrete (constant-time) driver oracle. -/
theorem phase2_swap_refines_min_witness :
    ((autotunePhase2 ⟨fun _ _ => .ok 1, fun _ m => m, fun _ => .ok ()⟩ 3
        ([⟨⟨Kernel.make "a" 1 0 "p" "t" 80, (1, 1, 1), []⟩, "c0"⟩,
          ⟨⟨Kernel.make "b" 1 0 "p" "t" 80, (1, 1, 1), []⟩, "c1"⟩] :
          List Config).toArray (fun _ => 0)).2.1.toList.head? =
      selectMinByTime (fun _ => (1 : Rat))
        ([⟨⟨Kernel.make "a" 1 0 "p" "t" 80, (1, 1, 1), []⟩, "c0"⟩,
          ⟨⟨Kernel.make "b" 1 0 "p" "t" 80, (1, 1, 1), []⟩, "c1"⟩] :
          List Config)) ∧
    ∀ w, selectMinByTime (fun _ => (1 : Rat))
        ([⟨⟨Kernel.make "a" 1 0 "p" "t" 80, (1, 1, 1), []⟩, "c0"⟩,
          ⟨⟨Kernel.make "b" 1 0 "p" "t" 80, (1, 1, 1), []⟩, "c1"⟩] :
          List Config) = some w →
      w ∈ ([⟨⟨Kernel.make "a" 1 0 "p" "t" 80, (1, 1, 1), []⟩, "c0"⟩,
          ⟨⟨Kernel.make "b" 1 0 "p" "t" 80, (1, 1, 1), []⟩, "c1"⟩] :
          List Config) ∧
      (∀ c ∈ ([⟨⟨Kernel.make "a" 1 0 "p" "t" 80, (1, 1, 1), []⟩, "c0"⟩,
          ⟨⟨Kernel.make "b" 1 0 "p" "t" 80, (1, 1, 1), []⟩, "c1"⟩] :
          List Config), (1 : Rat) ≤ 1) ∧
      ∃ i, ∃ hi : i < ([⟨⟨Kernel.make "a" 1 0 "p" "t" 80, (1, 1, 1), []⟩,
          "c0"⟩, ⟨⟨Kernel.make "b" 1 0 "p" "t" 80, (1, 1, 1), []⟩, "c1"⟩] :
          List Config).length,
        ([⟨⟨Kernel.make "a" 1 0 "p" "t" 80, (1, 1, 1), []⟩, "c0"⟩,
          ⟨⟨Kernel.make "b" 1 0 "p" "t" 80, (1, 1, 1), []⟩, "c1"⟩] :
          List Config).get ⟨i, hi⟩ = w ∧
        ∀ j, j < i → (1 : Rat) < 1 :=
  phase2_swap_refines_min ⟨fun _ _ => .ok 1, fun _ m => m, fun _ => .ok ()⟩
    (fun _ _ => 1) (fun _ _ => rfl) 3
    [⟨⟨Kernel.make "a" 1 0 "p" "t" 80, (1, 1, 1), []⟩, "c0"⟩,
      ⟨⟨Kernel.make "b" 1 0 "p" "t" 80, (1, 1, 1), []⟩, "c1"⟩] (fun _ => 0)

theorem autotunePhase1_ok (o : BenchOracle) (f : KernelCall → Nat → Rat)
    (hok : ∀ kc n, o.time kc n = .ok (f kc n)) :
    ∀ (cfgs : List Config) (best : Option Rat) (mem : Mem),
      (autotunePhase1 o cfgs best mem).1 = .ok (phase1Best f cfgs best) := by
  intro cfgs
  induction cfgs with
  | nil => intro best mem; rfl
  | cons c rest ih =>
    intro best mem
    rw [autotunePhase1, Benchmark_ok o f hok]
    exact ih _ _

theorem autotune_ok_normal (o : BenchOracle) (f : KernelCall → Nat → Rat)
    (hok : ∀ kc n, o.time kc n = .ok (f kc n)) (junk buffers : Nat → Nat)
    (name : String) (cfgs : List Config) (aliases : List (Nat × Nat × Nat))
    (once : Bool) (st : StatusOr Unit) (mem : Mem) :
    (AutotunedKernelCall.Autotune o junk buffers
      ⟨name, cfgs, aliases, once, st⟩ mem).1 = .ok () ∧
    (AutotunedKernelCall.Autotune o junk buffers
      ⟨name, cfgs, aliases, once, st⟩ mem).2.1 =
      (autotunePhase2 o (timedIters (phase1Best f cfgs none)) cfgs.toArray
        (autotunePhase1 o cfgs none mem).2).2.1.toList.take 1 := by
  rcases h1 : autotunePhase1 o cfgs none mem with ⟨st1, mem1⟩
  have hst1 : st1 = .ok (phase1Best f cfgs none) := by
    have h := autotunePhase1_ok o f hok cfgs none mem
    rw [h1] at h
    exact h
  subst hst1
  rcases h2 : autotunePhase2 o (timedIters (phase1Best f cfgs none))
      cfgs.toArray mem1 with ⟨st2, arr, mem2⟩
  have hst2 : st2 = .ok () := by
    have h := (autotunePhase2_sel o f hok
      (timedIters (phase1Best f cfgs none)) cfgs mem1).1
    rw [h2] at h
    exact h
  subst hst2
  constructor
  · unfold AutotunedKernelCall.Autotune
    simp only [h1]
    simp only [h2]
  · unfold AutotunedKernelCall.Autotune
    simp only [h1]
    simp only [h2]

/-- C1: for an `AutotunedKernelCall` with two or more configs and a fresh
one-shot gate, launched under a driver oracle whose benchmark calls all
succeed with times `f`: the first `Launch` invokes `Autotune`; afterwards
the config list holds exactly one config — the one `selectMinByTime` picks
for the phase-2 times (times at the timed iteration count derived from the
phase-1 minimum), which belongs to the original list and has minimal
phase-2 measured time — the gate is fired with an `OkStatus` stored; and
over any number of repeated `Launch` calls the benchmarking sequence runs
exactly once. -/
theorem autotuned_launch_once_spec (o : BenchOracle)
    (f : KernelCall → Nat → Rat)
    (hok : ∀ kc n, o.time kc n = .ok (f kc n)) (junk buffers : Nat → Nat)
    (name : String) (cfgs : List Config) (aliases : List (Nat × Nat × Nat))
    (mem : Mem) (h2 : 2 ≤ cfgs.length) :
    (AutotunedKernelCall.Launch o junk buffers
      ⟨name, cfgs, aliases, false, .ok ()⟩ mem).ranAutotune = true ∧
    (∃ w, selectMinByTime
        (fun c => f c.kernel_call (timedIters (phase1Best f cfgs none)))
        cfgs = some w ∧
      (AutotunedKernelCall.Launch o junk buffers
        ⟨name, cfgs, aliases, false, .ok ()⟩ mem).state.configs = [w] ∧
      w ∈ cfgs ∧
      ∀ c ∈ cfgs,
        f w.kernel_call (timedIters (phase1Best f cfgs none)) ≤
          f c.kernel_call (timedIters (phase1Best f cfgs none))) ∧
    (AutotunedKernelCall.Launch o junk buffers
      ⟨name, cfgs, aliases, false, .ok ()⟩ mem).state.autotune_once = true ∧
    (AutotunedKernelCall.Launch o junk buffers
      ⟨name, cfgs, aliases, false, .ok ()⟩ mem).state.autotune_status =
      .ok () ∧
    ∀ n, (launchTrace o junk buffers (n + 1)
      ⟨name, cfgs, aliases, false, .ok ()⟩ mem).countP
        (fun st => st.ranAutotune) = 1 := by
  have h2' : 1 < cfgs.length := h2
  have hL := launch_first_with_tuning o junk buffers name cfgs aliases mem h2'
  obtain ⟨hA1, hA2⟩ := autotune_ok_normal o f hok junk buffers name cfgs
    aliases false (.ok ()) mem
  obtain ⟨hds, hdr⟩ := dispatch_state_eq o
    ⟨name,
      (AutotunedKernelCall.Autotune o junk buffers
        ⟨name, cfgs, aliases, false, .ok ()⟩ mem).2.1,
      aliases, true,
      (AutotunedKernelCall.Autotune o junk buffers
        ⟨name, cfgs, aliases, false, .ok ()⟩ mem).1⟩
    (AutotunedKernelCall.Autotune o junk buffers
      ⟨name, cfgs, aliases, false, .ok ()⟩ mem).2.2 true
  have hne : cfgs ≠ [] := by
    intro hcon
    rw [hcon] at h2
    simp at h2
  obtain ⟨w, hw⟩ := selectMinByTime_isSome
    (fun c => f c.kernel_call (timedIters (phase1Best f cfgs none))) cfgs hne
  have hhead := (autotunePhase2_sel o f hok
    (timedIters (phase1Best f cfgs none)) cfgs
    ((autotunePhase1 o cfgs none mem).2)).2
  have htake : (autotunePhase2 o (timedIters (phase1Best f cfgs none))
      cfgs.toArray (autotunePhase1 o cfgs none mem).2).2.1.toList.take 1 =
      [w] := by
    apply head?_some_take_one
    rw [hhead, hw]
  have hconfigs : (AutotunedKernelCall.Autotune o junk buffers
      ⟨name, cfgs, aliases, false, .ok ()⟩ mem).2.1 = [w] := by
    rw [hA2, htake]
  obtain ⟨hmem, hmin, _⟩ := selectMinByTime_spec
    (fun c => f c.kernel_call (timedIters (phase1Best f cfgs none))) cfgs w hw
  have hranA : (AutotunedKernelCall.Launch o junk buffers
      ⟨name, cfgs, aliases, false, .ok ()⟩ mem).ranAutotune = true := by
    rw [hL, hdr]
  have hstateA : (AutotunedKernelCall.Launch o junk buffers
      ⟨name, cfgs, aliases, false, .ok ()⟩ mem).state =
      ⟨name,
        (AutotunedKernelCall.Autotune o junk buffers
          ⟨name, cfgs, aliases, false, .ok ()⟩ mem).2.1,
        aliases, true,
        (AutotunedKernelCall.Autotune o junk buffers
          ⟨name, cfgs, aliases, false, .ok ()⟩ mem).1⟩ := by
    rw [hL, hds]
  refine ⟨hranA, ⟨w, hw, ?_, hmem, hmin⟩, ?_, ?_, ?_⟩
  · rw [hstateA, hconfigs]
  · rw [hstateA]
  · rw [hstateA]
    exact hA1
  · intro n
    simp only [launchTrace, List.countP_cons]
    rw [launchTrace_after_gate o junk buffers n _ _ (by rw [hstateA])]
    rw [hranA]
    rfl

/-- Witness for `autotuned_launch_once_spec` at a concrete two-config call
and a concrete (constant-time) driver oracle. -/
theorem autotuned_launch_once_spec_witness :
    (AutotunedKernelCall.Launch
      ⟨fun _ _ => .ok 1, fun _ m => m, fun _ => .ok ()⟩ (fun _ => 0)
      (fun _ => 0)
      ⟨"w", [⟨⟨Kernel.make "a" 1 0 "p" "t" 80, (1, 1, 1), []⟩, "c0"⟩,
        ⟨⟨Kernel.make "b" 1 0 "p" "t" 80, (1, 1, 1), []⟩, "c1"⟩],
        [], false, .ok ()⟩ (fun _ => 0)).ranAutotune = true ∧
    (∃ w, selectMinByTime (fun _ => (1 : Rat))
        ([⟨⟨Kernel.make "a" 1 0 "p" "t" 80, (1, 1, 1), []⟩, "c0"⟩,
          ⟨⟨Kernel.make "b" 1 0 "p" "t" 80, (1, 1, 1), []⟩, "c1"⟩] :
          List Config) = some w ∧
      (AutotunedKernelCall.Launch
        ⟨fun _ _ => .ok 1, fun _ m => m, fun _ => .ok ()⟩ (fun _ => 0)
        (fun _ => 0)
        ⟨"w", [⟨⟨Kernel.make "a" 1 0 "p" "t" 80, (1, 1, 1), []⟩, "c0"⟩,
          ⟨⟨Kernel.make "b" 1 0 "p" "t" 80, (1, 1, 1), []⟩, "c1"⟩],
          [], false, .ok ()⟩ (fun _ => 0)).state.configs = [w] ∧
      w ∈ ([⟨⟨Kernel.make "a" 1 0 "p" "t" 80, (1, 1, 1), []⟩, "c0"⟩,
        ⟨⟨Kernel.make "b" 1 0 "p" "t" 80, (1, 1, 1), []⟩, "c1"⟩] :
        List Config) ∧
      ∀ c ∈ ([⟨⟨Kernel.make "a" 1 0 "p" "t" 80, (1, 1, 1), []⟩, "c0"⟩,
        ⟨⟨Kernel.make "b" 1 0 "p" "t" 80, (1, 1, 1), []⟩, "c1"⟩] :
        List Config), (1 : Rat) ≤ 1) ∧
    (AutotunedKernelCall.Launch
      ⟨fun _ _ => .ok 1, fun _ m => m, fun _ => .ok ()⟩ (fun _ => 0)
      (fun _ => 0)
      ⟨"w", [⟨⟨Kernel.make "a" 1 0 "p" "t" 80, (1, 1, 1), []⟩, "c0"⟩,
        ⟨⟨Kernel.make "b" 1 0 "p" "t" 80, (1, 1, 1), []⟩, "c1"⟩],
        [], false, .ok ()⟩ (fun _ => 0)).state.autotune_once = true ∧
    (AutotunedKernelCall.Launch
      ⟨fun _ _ => .ok 1, fun _ m => m, fun _ => .ok ()⟩ (fun _ => 0)
      (fun _ => 0)
      ⟨"w", [⟨⟨Kernel.make "a" 1 0 "p" "t" 80, (1, 1, 1), []⟩, "c0"⟩,
        ⟨⟨Kernel.make "b" 1 0 "p" "t" 80, (1, 1, 1), []⟩, "c1"⟩],
        [], false, .ok ()⟩ (fun _ => 0)).state.autotune_status = .ok () ∧
    ∀ n, (launchTrace ⟨fun _ _ => .ok 1, fun _ m => m, fun _ => .ok ()⟩
      (fun _ => 0) (fun _ => 0) (n + 1)
      ⟨"w", [⟨⟨Kernel.make "a" 1 0 "p" "t" 80, (1, 1, 1), []⟩, "c0"⟩,
        ⟨⟨Kernel.make "b" 1 0 "p" "t" 80, (1, 1, 1), []⟩, "c1"⟩],
        [], false, .ok ()⟩ (fun _ => 0)).countP
        (fun st => st.ranAutotune) = 1 :=
  autotuned_launch_once_spec
    ⟨fun _ _ => .ok 1, fun _ m => m, fun _ => .ok ()⟩ (fun _ _ => 1)
    (fun _ _ => rfl) (fun _ => 0) (fun _ => 0) "w"
    [⟨⟨Kernel.make "a" 1 0 "p" "t" 80, (1, 1, 1), []⟩, "c0"⟩,
      ⟨⟨Kernel.make "b" 1 0 "p" "t" 80, (1, 1, 1), []⟩, "c1"⟩]
    [] (fun _ => 0) (by decide)

end TritonKernels
